import Mathlib

/-!
# x86-64 System V ABI engine of llvm-abi: layout, eightbyte classification, canonical types

A shallow embedding of `lib/ABI_x86_64.cpp`.

* `size_t` quantities (sizes, alignments, offsets, element counts) are natural numbers and
  no wrap-around modulo `2^64` is modelled: a statement about all types is meant for the
  types whose layout arithmetic stays below `2^64`.
* Mutable locals of the C++ loops (`size`, `offset`, `structOffset`, the `Classification`
  passed by reference) become accumulator arguments of recursive functions over the
  member list.
* `assert` and `llvm_unreachable` become an `Except` error.
* `getTypeSize`, `getTypeAlign` and `classifyType` end in `llvm_unreachable` on `Void`, so
  `Ty` has the six kinds they handle. `computeAbiType` and `hasUnalignedFields` do return
  on `Void` (null and false), and a signature may return `Void`: `TypeObject` adds `Void`
  on top of `Ty` for them.
* The LLVM side (the types of a given signature, the memory behind `alloca`, `store`,
  `memcpy` and `load`) is not part of the repository; what is needed of it is modelled from
  the specification and marked so.
-/

namespace llvm_abi

/-! ## Type model -/

/-- Integer kinds switched over by `getTypeSize`. -/
inductive IntegerKind where
  | Bool | Char | Int8
  | Short | Int16
  | Int | Int32
  | Long | SizeT | PtrDiffT | LongLong | Int64
  | Int128
  deriving DecidableEq, Repr

/-- Floating point kinds; also used as the kind of a complex type. -/
inductive FloatingPointKind where
  | Float | Double | LongDouble | Float128
  deriving DecidableEq, Repr

/-- A struct member: its type and its explicit offset (`member.offset()`, 0 when none given). -/
structure StructMember (α : Type) where
  type : α
  offset : Nat
  deriving Repr

/-- The type descriptor `llvm_abi::Type` (the kinds handled by the x86-64 code). -/
inductive Ty where
  | pointer
  | integer (integerKind : IntegerKind)
  | floatingPoint (floatingPointKind : FloatingPointKind)
  | complex (complexKind : FloatingPointKind)
  | struct (structMembers : List (StructMember Ty))
  | array (arrayElementType : Ty) (arrayElementCount : Nat)

/-- The member list type `llvm::ArrayRef<StructMember>`. -/
abbrev Members := List (StructMember Ty)

def Ty.isStruct : Ty → Bool
  | .struct _ => true
  | _ => false

def Ty.isArray : Ty → Bool
  | .array _ _ => true
  | _ => false

def Ty.isPointer : Ty → Bool
  | .pointer => true
  | _ => false

/-- The test `type->isComplex() && type->complexKind() == Float`. -/
def Ty.isComplexFloat : Ty → Bool
  | .complex .Float => true
  | _ => false

/-- The test `type->isInteger() && type->integerKind() == Int32`. -/
def Ty.isIntegerInt32 : Ty → Bool
  | .integer .Int32 => true
  | _ => false

/-! ## Layout calculator -/

/-- Source `isPowerOf2`: `value != 0 && (value & (value - 1)) == 0`. -/
def isPowerOf2 (value : Nat) : Bool :=
  value != 0 && (value &&& (value - 1)) == 0

/-- Source `roundUpToAlign`: `(position + (align - 1)) & (~(align - 1))`; and-ing with the complement of the mask
`align - 1` clears the bits of the mask, that is, subtracts the masked bits. -/
def roundUpToAlign (position align : Nat) : Nat :=
  (position + (align - 1)) - ((position + (align - 1)) &&& (align - 1))

/-- Inner `switch (type->integerKind())` of `getTypeSize`. -/
def integerKindSize : IntegerKind → Nat
  | .Bool | .Char | .Int8 => 1
  | .Short | .Int16 => 2
  | .Int | .Int32 => 4
  | .Long | .SizeT | .PtrDiffT | .LongLong | .Int64 => 8
  | .Int128 => 16

/-- Inner `switch (type->floatingPointKind())` of `getTypeSize`. -/
def floatingPointKindSize : FloatingPointKind → Nat
  | .Float => 4
  | .Double => 8
  | .LongDouble => 16
  | .Float128 => 16

/-- Inner `switch (type->complexKind())` of `getTypeSize`. -/
def complexKindSize : FloatingPointKind → Nat
  | .Float => 8
  | .Double => 16
  | .LongDouble => 32
  | .Float128 => 32

mutual
/-- Source `getTypeSize`. In the struct case `getTypeAlign(type)` is the member loop of
`getTypeAlign` run on the struct's own members (see `getTypeSize_struct`). -/
def getTypeSize : Ty → Nat
  | .pointer => 8
  | .integer k => integerKindSize k
  | .floatingPoint k => floatingPointKindSize k
  | .complex k => complexKindSize k
  | .struct members =>
      if members.isEmpty then
        getTypeAlignLoop members 1
      else
        roundUpToAlign (getTypeSizeLoop members 0) (getTypeAlignLoop members 1)
  | .array elementType elementCount => getTypeSize elementType * elementCount
/-- The loop `for (member : structMembers)` of `getTypeSize`, with the running `size`. -/
def getTypeSizeLoop : List (StructMember Ty) → Nat → Nat
  | [], size => size
  | member :: rest, size =>
      let size1 :=
        if member.offset < size then roundUpToAlign size (getTypeAlign member.type)
        else member.offset
      getTypeSizeLoop rest (size1 + getTypeSize member.type)
/-- Source `getTypeAlign`. In the array case `getTypeSize(type)` is the array branch of
`getTypeSize`; the `default` branch `return getTypeSize(type)` is unfolded per scalar kind
(see `getTypeAlign_array` and `getTypeAlign_default`). -/
def getTypeAlign : Ty → Nat
  | .struct members => getTypeAlignLoop members 1
  | .array elementType elementCount =>
      let elementAlign := getTypeAlign elementType
      let minAlign := if getTypeSize elementType * elementCount ≥ 16 then 16 else 1
      max elementAlign minAlign
  | .pointer => 8
  | .integer k => integerKindSize k
  | .floatingPoint k => floatingPointKindSize k
  | .complex k => complexKindSize k
/-- The loop `for (member : structMembers)` of `getTypeAlign`, with `mostStrictAlign`. -/
def getTypeAlignLoop : List (StructMember Ty) → Nat → Nat
  | [], mostStrictAlign => mostStrictAlign
  | member :: rest, mostStrictAlign =>
      getTypeAlignLoop rest (max mostStrictAlign (getTypeAlign member.type))
end

/-- The loop of `getStructOffsets`, with the running `offset` and the vector `offsets`. -/
def getStructOffsetsLoop : Members → Nat → List Nat → List Nat
  | [], _, offsets => offsets
  | member :: rest, offset, offsets =>
      let offset1 :=
        if member.offset < offset then roundUpToAlign offset (getTypeAlign member.type)
        else member.offset
      getStructOffsetsLoop rest (offset1 + getTypeSize member.type) (offsets ++ [offset1])

/-- Source `getStructOffsets`. -/
def getStructOffsets (structMembers : Members) : List Nat :=
  getStructOffsetsLoop structMembers 0 []

mutual
/-- Source `hasUnalignedFields`. -/
def hasUnalignedFields : Ty → Bool
  | .struct members => hasUnalignedFieldsLoop members 0
  | _ => false
/-- The loop of `hasUnalignedFields`, with the running `offset`. -/
def hasUnalignedFieldsLoop : List (StructMember Ty) → Nat → Bool
  | [], _ => false
  | member :: rest, offset =>
      let offset1 := roundUpToAlign offset (getTypeAlign member.type)
      let memberOffset := if member.offset == 0 then offset1 else member.offset
      if memberOffset != offset1 || hasUnalignedFields member.type then
        true
      else
        hasUnalignedFieldsLoop rest (offset1 + getTypeSize member.type)
end

/-! ## Eightbyte classifier -/

/-- The enumeration `ArgClass`. -/
inductive ArgClass where
  | Integer | Sse | SseUp | X87 | X87Up | ComplexX87 | NoClass | Memory
  deriving DecidableEq, Repr

/-- Class merge operation as specified in the ABI. -/
def merge (first second : ArgClass) : ArgClass :=
  if first = second then first
  else if first = .NoClass then second
  else if second = .NoClass then first
  else if first = .Memory ∨ second = .Memory then .Memory
  else if first = .Integer ∨ second = .Integer then .Integer
  else if first = .X87 ∨ first = .X87Up ∨ first = .ComplexX87 ∨
      second = .X87 ∨ second = .X87Up ∨ second = .ComplexX87 then .Memory
  else .Sse

/-- The two eightbyte slots `classes[0]` (low) and `classes[1]` (high). -/
structure Classification where
  low : ArgClass
  high : ArgClass
  deriving DecidableEq, Repr

namespace Classification

/-- The default constructor: both slots `NoClass`. -/
def empty : Classification := ⟨ArgClass.NoClass, ArgClass.NoClass⟩

/-- Read `classes[idx]`. -/
def get (c : Classification) (idx : Nat) : ArgClass :=
  if idx = 0 then c.low else c.high

/-- Write `classes[idx] = cls`. -/
def set (c : Classification) (idx : Nat) (cls : ArgClass) : Classification :=
  if idx = 0 then { c with low := cls } else { c with high := cls }

/-- Source `isMemory`: `classes[0] == Memory`. -/
def isMemory (c : Classification) : Bool :=
  c.low == ArgClass.Memory

/-- Source `addField`. -/
def addField (c : Classification) (offset : Nat) (fieldClass : ArgClass) : Classification :=
  if c.isMemory then c
  else
    let idx := if offset < 8 then 0 else 1
    let mergedClass := merge (c.get idx) fieldClass
    if mergedClass ≠ c.get idx then
      let c1 := c.set idx mergedClass
      if mergedClass = ArgClass.Memory then c1.set (1 - idx) ArgClass.Memory else c1
    else c

end Classification

mutual
/-- Source `classifyType`: the classification is threaded through instead of passed by reference.
A complex `Float128` matches none of the three inner branches and adds nothing. -/
def classifyType : Classification → Ty → Nat → Classification
  | c, .integer _, offset => c.addField offset ArgClass.Integer
  | c, .pointer, offset => c.addField offset ArgClass.Integer
  | c, .floatingPoint k, offset =>
      if k = FloatingPointKind.LongDouble then
        (c.addField offset ArgClass.X87).addField (offset + 8) ArgClass.X87Up
      else
        c.addField offset ArgClass.Sse
  | c, .complex k, offset =>
      if k = FloatingPointKind.Float then
        (c.addField offset ArgClass.Sse).addField (offset + 4) ArgClass.Sse
      else if k = FloatingPointKind.Double then
        (c.addField offset ArgClass.Sse).addField (offset + 8) ArgClass.Sse
      else if k = FloatingPointKind.LongDouble then
        (c.addField offset ArgClass.ComplexX87).addField (offset + 16) ArgClass.ComplexX87
      else c
  | c, .array elementType elementCount, offset =>
      let elementSize := getTypeSize elementType
      (List.range elementCount).foldl
        (fun acc i => classifyType acc elementType (offset + i * elementSize)) c
  | c, .struct structMembers, offset => classifyTypeLoop c structMembers offset 0
/-- The struct member loop of `classifyType`, with the running `structOffset`. -/
def classifyTypeLoop : Classification → List (StructMember Ty) → Nat → Nat → Classification
  | c, [], _, _ => c
  | c, member :: rest, offset, structOffset =>
      let structOffset1 :=
        if member.offset < structOffset then
          roundUpToAlign structOffset (getTypeAlign member.type)
        else member.offset
      classifyTypeLoop (classifyType c member.type (offset + structOffset1)) rest offset
        (structOffset1 + getTypeSize member.type)
end

/-- Source `classify`. -/
def classify (type : Ty) : Classification :=
  if getTypeSize type > 32 || hasUnalignedFields type then
    Classification.empty.addField 0 ArgClass.Memory
  else
    classifyType Classification.empty type 0

/-! ## Canonical type resolver -/

/-- The LLVM types that `computeAbiType` builds. -/
inductive LlvmType where
  | integer (bits : Nat)
  | float
  | double
  | x86_fp80
  | vector (elementType : LlvmType) (numElements : Nat)
  | struct (elements : List LlvmType)

/-- The fatal exits: failed assertions, `llvm_unreachable`, the range check of
`std::vector::at`, and a `memcpy` in the generated code that leaves its slot. -/
inductive Fatal where
  | nonEmptyStructWithEmptyFirstHalf
  | upperHalfOfRealNotX87Up
  | unanticipatedArgumentClass
  | sizeNotAbove8
  | unanticipatedArgumentClassForSecondHalf
  | indexOutOfRange
  | parameterCountMismatch
  | argumentCountMismatch
  | copyOutOfBounds
  deriving DecidableEq, Repr

/-- Source `isFloat32`. -/
def isFloat32 : Ty → Bool
  | .floatingPoint .Float => true
  | _ => false

/-- The loop `while (memberIndex < structMembers.size() && memberOffsets.at(memberIndex) < 8)
memberIndex++`, run over the offsets from `memberIndex` on (there is one offset per
member). -/
def skipMembersBelow8 : List Nat → Nat → Nat
  | [], memberIndex => memberIndex
  | memberOffset :: rest, memberIndex =>
      if memberOffset < 8 then skipMembersBelow8 rest (memberIndex + 1) else memberIndex

/-- The carve-out test of `computeAbiType`: a struct of exactly two members, the first a
pointer and the last an integer of kind `Int32`. -/
def isPointerInt32Struct : Ty → Bool
  | .struct [front, back] => front.type.isPointer && back.type.isIntegerInt32
  | _ => false

/-- The second `switch (classification.classes[1])` of `computeAbiType`, given the parts
pushed so far. -/
def computeAbiTypeHigh (type : Ty) (classification : Classification) (size : Nat)
    (parts : List LlvmType) : Except Fatal (Option LlvmType) :=
  match classification.high with
  | .NoClass =>
      match parts with
      | [part] => .ok (some part)
      | _ => .error .indexOutOfRange
  | .Integer =>
      if size > 8 then
        .ok (some (.struct (parts ++ [.integer ((size - 8) * 8)])))
      else .error .sizeNotAbove8
  | .Sse =>
      if size ≤ 12 then
        .ok (some (.struct (parts ++ [.float])))
      else
        match type with
        | .struct structMembers =>
            let memberOffsets := getStructOffsets structMembers
            let memberIndex := skipMembersBelow8 memberOffsets 0
            if memberIndex ≠ structMembers.length then
              match structMembers[memberIndex]? with
              | some member =>
                  if isFloat32 member.type then
                    .ok (some (.struct (parts ++ [.vector .float 2])))
                  else
                    .ok (some (.struct (parts ++ [.double])))
              | none => .error .indexOutOfRange
            else
              .ok (some (.struct (parts ++ [.double])))
        | _ => .ok (some (.struct (parts ++ [.double])))
  | .X87Up =>
      if classification.low = .X87 then
        .ok (some (.struct parts))
      else
        .ok (some (.struct (parts ++ [.double])))
  | _ => .error .unanticipatedArgumentClassForSecondHalf

/-- Source `computeAbiType`: `.ok none` is the null result (no transformation needed). -/
def computeAbiType (type : Ty) : Except Fatal (Option LlvmType) :=
  if !(type.isComplexFloat || type.isStruct) then
    .ok none
  else if isPointerInt32Struct type then
    .ok none
  else
    let classification := classify type
    if classification.isMemory then
      .ok none
    else if classification.low = .NoClass then
      if classification.high = .NoClass then .ok none
      else .error .nonEmptyStructWithEmptyFirstHalf
    else
      let size := getTypeSize type
      match classification.low with
      | .Integer =>
          let bits := if size ≥ 8 then 64 else size * 8
          computeAbiTypeHigh type classification size [.integer bits]
      | .Sse =>
          if size ≤ 4 then
            computeAbiTypeHigh type classification size [.float]
          else
            match type with
            | .struct structMembers =>
                match structMembers[0]? with
                | some firstMember =>
                    if isFloat32 firstMember.type then
                      computeAbiTypeHigh type classification size [.vector .float 2]
                    else
                      computeAbiTypeHigh type classification size [.double]
                | none => .error .indexOutOfRange
            | _ => computeAbiTypeHigh type classification size [.double]
      | .X87 =>
          if classification.high = .X87Up then .ok (some .x86_fp80)
          else .error .upperHalfOfRealNotX87Up
      | _ => .error .unanticipatedArgumentClass

/-! ## Query cache -/

/-- The identity of a type object (a `Type*`): the key of the caches. -/
abbrev TypeId := Nat

/-- A cache `std::map<Type*, V>`: at most one value per key. -/
abbrev Cache (V : Type) := TypeId → Option V

/-- The call `cache.insert(std::make_pair(key, value))`: adds the entry unless the key is
already present. -/
def Cache.insert {V : Type} (cache : Cache V) (key : TypeId) (value : V) : Cache V :=
  fun k =>
    if k = key then
      match cache key with
      | some present => some present
      | none => some value
    else cache k

/-- The three mutable caches of `ABI_x86_64`. -/
structure Caches where
  sizeOfCache_ : Cache Nat
  alignOfCache_ : Cache Nat
  abiTypeCache_ : Cache (Option LlvmType)

/-- The caches of a freshly constructed `ABI_x86_64`. -/
def Caches.empty : Caches :=
  ⟨fun _ => none, fun _ => none, fun _ => none⟩

/-- Source `ABI_x86_64::typeSize`; `deref` gives the (immutable) type object behind a
pointer. Returns the value and the caches after the call. -/
def typeSize (deref : TypeId → Ty) (caches : Caches) (type : TypeId) : Nat × Caches :=
  match caches.sizeOfCache_ type with
  | some cached => (cached, caches)
  | none =>
      let value := getTypeSize (deref type)
      (value, { caches with sizeOfCache_ := caches.sizeOfCache_.insert type value })

/-- Source `ABI_x86_64::typeAlign`. -/
def typeAlign (deref : TypeId → Ty) (caches : Caches) (type : TypeId) : Nat × Caches :=
  match caches.alignOfCache_ type with
  | some cached => (cached, caches)
  | none =>
      let value := getTypeAlign (deref type)
      (value, { caches with alignOfCache_ := caches.alignOfCache_.insert type value })

/-- Source `ABI_x86_64::abiType`; a fatal exit of `computeAbiType` ends the run. -/
def abiType (deref : TypeId → Ty) (caches : Caches) (type : TypeId) :
    Except Fatal (Option LlvmType × Caches) :=
  match caches.abiTypeCache_ type with
  | some cached => .ok (cached, caches)
  | none =>
      match computeAbiType (deref type) with
      | .error fatal => .error fatal
      | .ok llvmABIType =>
          .ok (llvmABIType,
            { caches with abiTypeCache_ := caches.abiTypeCache_.insert type llvmABIType })

/-- A call of one of the three cached queries. -/
inductive CacheCall where
  | typeSize (type : TypeId)
  | typeAlign (type : TypeId)
  | abiType (type : TypeId)

/-- The caches after one call (the value returned is dropped). -/
def CacheCall.run (deref : TypeId → Ty) (caches : Caches) : CacheCall → Except Fatal Caches
  | .typeSize type => .ok (llvm_abi.typeSize deref caches type).2
  | .typeAlign type => .ok (llvm_abi.typeAlign deref caches type).2
  | .abiType type =>
      match llvm_abi.abiType deref caches type with
      | .error fatal => .error fatal
      | .ok result => .ok result.2

/-- The caches after a sequence of calls, first call first. -/
def runCalls (deref : TypeId → Ty) : List CacheCall → Caches → Except Fatal Caches
  | [], caches => .ok caches
  | call :: rest, caches =>
      match call.run deref caches with
      | .error fatal => .error fatal
      | .ok caches1 => runCalls deref rest caches1

/-- Every cached entry is what the uncached function computes for the type behind the key. -/
def Caches.Coherent (deref : TypeId → Ty) (caches : Caches) : Prop :=
  (∀ type value, caches.sizeOfCache_ type = some value → value = getTypeSize (deref type)) ∧
  (∀ type value, caches.alignOfCache_ type = some value → value = getTypeAlign (deref type)) ∧
  (∀ type value, caches.abiTypeCache_ type = some value →
    computeAbiType (deref type) = .ok value)

/-! ## Type objects that may be `Void` -/

/-- A type object behind a `Type*`: `Void`, or a type of one of the six kinds of `Ty`. -/
inductive TypeObject where
  | void
  | nonVoid (type : Ty)

/-- Source `computeAbiType` on any type object: `Void` is neither a complex float nor a
struct, so the first test returns null for it. -/
def computeAbiTypeOf : TypeObject → Except Fatal (Option LlvmType)
  | .void => .ok none
  | .nonVoid type => computeAbiType type

/-- Source `hasUnalignedFields` on any type object: `Void` is not a struct, so the first
test returns false for it. -/
def hasUnalignedFieldsOf : TypeObject → Bool
  | .void => false
  | .nonVoid type => hasUnalignedFields type

/-- Source `ABI_x86_64::abiType` over type objects that may be `Void`. -/
def abiTypeOf (deref : TypeId → TypeObject) (caches : Caches) (type : TypeId) :
    Except Fatal (Option LlvmType × Caches) :=
  match caches.abiTypeCache_ type with
  | some cached => .ok (cached, caches)
  | none =>
      match computeAbiTypeOf (deref type) with
      | .error fatal => .error fatal
      | .ok llvmABIType =>
          .ok (llvmABIType,
            { caches with abiTypeCache_ := caches.abiTypeCache_.insert type llvmABIType })

/-! ## Function signature lowerer -/

/-- The fields of `llvm_abi::FunctionType` that `rewriteFunctionType` reads. -/
structure FunctionType where
  returnType : TypeId
  argTypes : List TypeId

/-- Modelled from the spec: an `llvm::Type*` in a signature. It is either a canonical type
built by `computeAbiType`, or some other type of the given signature (`void`, a pointer, the
natural type of an aggregate), known by its identity only. -/
inductive LlvmTypeRef where
  | canonical (type : LlvmType)
  | original (id : Nat)

/-- Modelled from the spec: an `llvm::FunctionType`: return type, parameter types, variadic
flag. -/
structure LlvmFunctionType where
  returnType : LlvmTypeRef
  paramTypes : List LlvmTypeRef
  isVarArg : Bool

/-- What `rewriteFunctionType` returns: the very `llvmFunctionType` pointer it was given, or
the result of `llvm::FunctionType::get(returnType, argTypes, isVarArg)`. -/
inductive RewrittenFunctionType where
  | given
  | get (returnType : LlvmTypeRef) (argTypes : List LlvmTypeRef) (isVarArg : Bool)

/-- The loop `for (i = 0; i < getNumParams(); i++)` of `rewriteFunctionType`: the index
walks the parameter types `getParamType(i)` and the argument types `argTypes.at(i)` in step;
`argTypes` is the vector built so far. -/
def rewriteFunctionTypeLoop (deref : TypeId → TypeObject) :
    List LlvmTypeRef → List TypeId → List LlvmTypeRef → Bool → Caches →
      Except Fatal (List LlvmTypeRef × Bool × Caches)
  | [], _, argTypes, modified, caches => .ok (argTypes, modified, caches)
  | _ :: _, [], _, _, _ => .error .indexOutOfRange
  | paramType :: params, argType :: args, argTypes, modified, caches =>
      match abiTypeOf deref caches argType with
      | .error fatal => .error fatal
      | .ok (some llvmAbiType, caches1) =>
          rewriteFunctionTypeLoop deref params args (argTypes ++ [.canonical llvmAbiType])
            true caches1
      | .ok (none, caches1) =>
          rewriteFunctionTypeLoop deref params args (argTypes ++ [paramType]) modified caches1

/-- Source `ABI_x86_64::rewriteFunctionType`. -/
def rewriteFunctionType (deref : TypeId → TypeObject) (caches : Caches)
    (llvmFunctionType : LlvmFunctionType) (functionType : FunctionType) :
    Except Fatal (RewrittenFunctionType × Caches) :=
  if llvmFunctionType.paramTypes.length ≠ functionType.argTypes.length then
    .error .parameterCountMismatch
  else
    match abiTypeOf deref caches functionType.returnType with
    | .error fatal => .error fatal
    | .ok (llvmAbiType, caches1) =>
        let modified := llvmAbiType.isSome
        let returnType :=
          match llvmAbiType with
          | some abi => .canonical abi
          | none => llvmFunctionType.returnType
        match rewriteFunctionTypeLoop deref llvmFunctionType.paramTypes functionType.argTypes
            [] modified caches1 with
        | .error fatal => .error fatal
        | .ok (argTypes, modified1, caches2) =>
            if modified1 then
              .ok (.get returnType argTypes llvmFunctionType.isVarArg, caches2)
            else
              .ok (.given, caches2)

/-! ## Auxiliary notions used in the statements -/

/-- The alignments that occur: 1, 2, 4, 8, 16 and 32 (a complex long double or complex
float128 is 32 bytes, and a scalar is aligned to its size). -/
def IsAbiAlign (a : Nat) : Prop :=
  a = 1 ∨ a = 2 ∨ a = 4 ∨ a = 8 ∨ a = 16 ∨ a = 32

/-- The three extended-precision classes that `merge` sends to `Memory` when mixed. -/
def ArgClass.isX87Class : ArgClass → Bool
  | .X87 | .X87Up | .ComplexX87 => true
  | _ => false

/-- The offset a member gets from the cursor/rounding rule shared by `getTypeSize`,
`getStructOffsets` and `classifyType`, given the running cursor before it. -/
def resolvedOffset (member : StructMember Ty) (cursor : Nat) : Nat :=
  if member.offset < cursor then roundUpToAlign cursor (getTypeAlign member.type)
  else member.offset

/-- End of the member before index `i` in the layout that starts at `cursor`: the cursor
itself for the first member, else the resolved offset of member `i - 1` plus its size. -/
def previousEndFrom (members : Members) (cursor : Nat) : Nat → Nat
  | 0 => cursor
  | j + 1 =>
      (getStructOffsetsLoop members cursor []).getD j 0 +
        (match members[j]? with
          | some previous => getTypeSize previous.type
          | none => 0)

/-- End of the previous member in the resolved layout of a struct (0 before the first). -/
def previousMemberEnd (members : Members) (i : Nat) : Nat :=
  previousEndFrom members 0 i

/-- The condition of the specification on member `i`: its resolved offset (as returned by
`getStructOffsets`) differs from the end of the previous member rounded up to the member's
alignment, or the member's type has unaligned fields. -/
def memberOffNaturalOffset (members : Members) (i : Nat) : Bool :=
  match members[i]? with
  | some member =>
      ((getStructOffsets members).getD i 0 !=
          roundUpToAlign (previousMemberEnd members i) (getTypeAlign member.type)) ||
        hasUnalignedFields member.type
  | none => false

/-- The member list with every explicit offset removed (set to 0, "no offset given"). -/
def withoutExplicitOffsets (members : Members) : Members :=
  members.map (fun member => { member with offset := 0 })

/-- The condition the code tests on member `i`: it has a nonzero explicit offset different
from its offset in the layout without explicit offsets, or its type has unaligned fields. -/
def memberExplicitlyMisplaced (members : Members) (i : Nat) : Bool :=
  match members[i]? with
  | some member =>
      (member.offset != 0 &&
          member.offset != (getStructOffsets (withoutExplicitOffsets members)).getD i 0) ||
        hasUnalignedFields member.type
  | none => false

/-- The member list with the explicit offset of member `i` replaced by 0 ("no explicit
offset"). -/
def clearExplicitOffset : Members → Nat → Members
  | [], _ => []
  | member :: rest, 0 => { member with offset := 0 } :: rest
  | member :: rest, i + 1 => member :: clearExplicitOffset rest i

/-- The kinds of field named in the remark of `addField`: integers, pointers, and the
floating point kinds other than long double (`Float`, `Double`, `Float128`). -/
def isOneSlotField : Ty → Bool
  | .integer _ => true
  | .pointer => true
  | .floatingPoint k => decide (k ≠ FloatingPointKind.LongDouble)
  | _ => false

mutual
/-- The scalar fields that `classifyType` reaches, each with the offset it is classified at,
in the order of the calls: the traversal of `classifyType` with the list of fields in place
of the classification. -/
def classifiedFields : List (Nat × Ty) → Ty → Nat → List (Nat × Ty)
  | fields, .integer k, offset => fields ++ [(offset, .integer k)]
  | fields, .pointer, offset => fields ++ [(offset, .pointer)]
  | fields, .floatingPoint k, offset => fields ++ [(offset, .floatingPoint k)]
  | fields, .complex k, offset => fields ++ [(offset, .complex k)]
  | fields, .array elementType elementCount, offset =>
      let elementSize := getTypeSize elementType
      (List.range elementCount).foldl
        (fun acc i => classifiedFields acc elementType (offset + i * elementSize)) fields
  | fields, .struct structMembers, offset => classifiedFieldsLoop fields structMembers offset 0
/-- The struct member loop of `classifiedFields`. -/
def classifiedFieldsLoop :
    List (Nat × Ty) → List (StructMember Ty) → Nat → Nat → List (Nat × Ty)
  | fields, [], _, _ => fields
  | fields, member :: rest, offset, structOffset =>
      let structOffset1 :=
        if member.offset < structOffset then
          roundUpToAlign structOffset (getTypeAlign member.type)
        else member.offset
      classifiedFieldsLoop (classifiedFields fields member.type (offset + structOffset1)) rest
        offset (structOffset1 + getTypeSize member.type)
end

/-- Classifying one reached field: the `addField` calls `classifyType` makes for it. -/
def classifyField (c : Classification) (field : Nat × Ty) : Classification :=
  classifyType c field.2 field.1

/-- Modelled from the spec: the alignment of a part of a canonical type in the slot that
`encodeValues` allocates for it; the LLVM data layout is not part of this repository. A part
is aligned to its byte size, an integer to the next power of two of its byte size and at
most 8. -/
def llvmPartAlign : LlvmType → Nat
  | .integer bits =>
      if bits ≤ 8 then 1 else if bits ≤ 16 then 2 else if bits ≤ 32 then 4 else 8
  | .float => 4
  | .double => 8
  | .x86_fp80 => 16
  | .vector _ _ => 8
  | .struct _ => 1

/-- Modelled from the spec: the byte size of a part of a canonical type: `N / 8` for an
`N`-bit integer, 4 for `Float`, 8 for `Double` and for the 2-lane `Float` vector, 16 for the
x87 80-bit type. -/
def llvmPartSize : LlvmType → Nat
  | .integer bits => bits / 8
  | .float => 4
  | .double => 8
  | .x86_fp80 => 16
  | .vector _ _ => 8
  | .struct _ => 0

/-- Modelled from the spec: the byte size of a canonical type: the size of the part when it
is a single part, and for a pair the padded sum (the second part starts at the next multiple
of its alignment, and the total is rounded up to the larger alignment). -/
def llvmTypeByteSize : LlvmType → Nat
  | .struct [low, high] =>
      roundUpToAlign (roundUpToAlign (llvmPartSize low) (llvmPartAlign high) + llvmPartSize high)
        (max (llvmPartAlign low) (llvmPartAlign high))
  | part => llvmPartSize part

/-- The cache `after` is the cache `before` with the entry `key ↦ value` added: every other
key is untouched, and `key` was absent or already held `value`. -/
def Cache.AddedAt {V : Type} (before after : Cache V) (key : TypeId) (value : V) : Prop :=
  (∀ k, k ≠ key → after k = before k) ∧ after key = some value ∧
    (before key = none ∨ before key = some value)

/-- The classification after a sequence of `addField(offset, class)` calls. -/
def Classification.addFields (c : Classification) (fields : List (Nat × ArgClass)) :
    Classification :=
  fields.foldl (fun acc field => acc.addField field.1 field.2) c

/-- Whether the type is a struct whose first member is a `Float`. -/
def firstMemberIsFloat : Ty → Bool
  | .struct (firstMember :: _) => isFloat32 firstMember.type
  | _ => false

/-- The low part for an `Integer` low slot: an integer of `min(size, 8) * 8` bits. -/
def integerLowPart (type : Ty) : LlvmType :=
  .integer (min (getTypeSize type) 8 * 8)

/-- The low part for an `SSE` low slot as the specification words it: `Float` when the size
is at most 4, a 2-lane `Float` vector when the type is a struct of size above 4 whose first
member is a `Float`, and `Double` otherwise. -/
def sseLowPart (type : Ty) : LlvmType :=
  if getTypeSize type ≤ 4 then .float
  else if firstMemberIsFloat type then .vector .float 2
  else .double

/-- The low part of the canonical type for an `Integer` or `SSE` low slot. -/
def lowPart (type : Ty) : LlvmType :=
  if (classify type).low = .Integer then integerLowPart type else sseLowPart type

/-- The first member whose resolved offset (per `getStructOffsets`) is at least 8. -/
def firstMemberFrom8 (members : Members) : Option (StructMember Ty) :=
  ((members.zip (getStructOffsets members)).find? (fun entry => decide (8 ≤ entry.2))).map
    Prod.fst

/-- The high part for an `SSE` high slot as the specification words it: `Float` when the
size is at most 12; otherwise, for a struct, a 2-lane `Float` vector when the first member
at offset 8 or more exists and is a `Float`, and `Double` when it is not; `Double` for a
non-struct. -/
def sseHighPart (type : Ty) : LlvmType :=
  if getTypeSize type ≤ 12 then .float
  else
    match type with
    | .struct members =>
        match firstMemberFrom8 members with
        | some member => if isFloat32 member.type then .vector .float 2 else .double
        | none => .double
    | _ => .double

mutual
/-- Whether the type has a long double or complex long double field anywhere in it. -/
def containsLongDouble : Ty → Bool
  | .pointer => false
  | .integer _ => false
  | .floatingPoint k => decide (k = FloatingPointKind.LongDouble)
  | .complex k => decide (k = FloatingPointKind.LongDouble)
  | .struct members => containsLongDoubleMembers members
  | .array elementType _ => containsLongDouble elementType
/-- Whether some member has a long double or complex long double field anywhere in it. -/
def containsLongDoubleMembers : List (StructMember Ty) → Bool
  | [] => false
  | member :: rest => containsLongDouble member.type || containsLongDoubleMembers rest
end

/-- Both slots hold one of `NoClass`, `Integer`, `SSE`. -/
def Classification.IsIntegerOrSse (c : Classification) : Prop :=
  (c.low = .NoClass ∨ c.low = .Integer ∨ c.low = .Sse) ∧
    (c.high = .NoClass ∨ c.high = .Integer ∨ c.high = .Sse)

/-- The `abiType` cache holds only computed entries, for type objects that may be `Void`. -/
def Caches.AbiTypeCoherent (deref : TypeId → TypeObject) (caches : Caches) : Prop :=
  ∀ type value, caches.abiTypeCache_ type = some value →
    computeAbiTypeOf (deref type) = .ok value

/-- Modelled from the spec: the type a lowered signature has in place of `original`: the
canonical type where `abiType` is non-null, the original type where it is null. -/
def substitutedType (llvmAbiType : Option LlvmType) (original : LlvmTypeRef) : LlvmTypeRef :=
  match llvmAbiType with
  | some abi => .canonical abi
  | none => original

/-! ## Value transcoder -/

/-- Modelled from the spec: a run-time value as its bit pattern, the bytes of its storage. -/
abbrev Bytes := List Nat

/-- Modelled from the spec: the sequence that `encodeValues` and `decodeValues` emit for one
argument: `alloca` a slot of `sourceSize` bytes and `store` the value into it, `alloca` a slot
of `destSize` bytes, `memcpy` `copySize` bytes from the first slot to the second, and `load`
the second slot. A copy that reads past the source slot or writes past the destination slot
is undefined behaviour of the generated code and is a fatal exit here; the bytes of the
destination that the copy does not write are uninitialised, modelled as 0. -/
def copyThroughMemory (sourceSize destSize copySize : Nat) (value : Bytes) :
    Except Fatal Bytes :=
  if copySize ≤ destSize ∧ copySize ≤ sourceSize then
    .ok (value.take copySize ++ List.replicate (destSize - copySize) 0)
  else
    .error .copyOutOfBounds

/-- The loop of `encodeValues` over the arguments: `argValue->getType()` is the natural type
of the argument, whose slot has as many bytes as the value; the slot of the canonical type
has `llvmTypeByteSize` bytes; `typeSize(argType)` bytes are copied. -/
def encodeValuesLoop (deref : TypeId → Ty) :
    List Bytes → List TypeId → Caches → Except Fatal (List Bytes × Caches)
  | [], _, caches => .ok ([], caches)
  | _ :: _, [], _ => .error .indexOutOfRange
  | argValue :: argValues, argType :: argTypes, caches =>
      match abiType deref caches argType with
      | .error fatal => .error fatal
      | .ok (none, caches1) =>
          match encodeValuesLoop deref argValues argTypes caches1 with
          | .error fatal => .error fatal
          | .ok (rest, caches2) => .ok (argValue :: rest, caches2)
      | .ok (some llvmAbiType, caches1) =>
          let size := typeSize deref caches1 argType
          let align := typeAlign deref size.2 argType
          match copyThroughMemory argValue.length (llvmTypeByteSize llvmAbiType) size.1
              argValue with
          | .error fatal => .error fatal
          | .ok encodedValue =>
              match encodeValuesLoop deref argValues argTypes align.2 with
              | .error fatal => .error fatal
              | .ok (rest, caches2) => .ok (encodedValue :: rest, caches2)

/-- Source `ABI_x86_64::encodeValues`: the argument values after the call. -/
def encodeValues (deref : TypeId → Ty) (caches : Caches) (argValues : List Bytes)
    (argTypes : List TypeId) : Except Fatal (List Bytes × Caches) :=
  if argValues.length ≠ argTypes.length then .error .argumentCountMismatch
  else encodeValuesLoop deref argValues argTypes caches

/-- The loop of `decodeValues` over the arguments: `llvmArgTypes[i]`, the natural type of
the argument, is given by the size of its slot; the slot of the encoded value has as many
bytes as the value; `typeSize(argType)` bytes are copied. -/
def decodeValuesLoop (deref : TypeId → Ty) :
    List Bytes → List TypeId → List Nat → Caches → Except Fatal (List Bytes × Caches)
  | [], _, _, caches => .ok ([], caches)
  | _ :: _, [], _, _ => .error .indexOutOfRange
  | encodedValue :: argValues, argType :: argTypes, llvmArgTypes, caches =>
      match abiType deref caches argType with
      | .error fatal => .error fatal
      | .ok (none, caches1) =>
          match decodeValuesLoop deref argValues argTypes llvmArgTypes.tail caches1 with
          | .error fatal => .error fatal
          | .ok (rest, caches2) => .ok (encodedValue :: rest, caches2)
      | .ok (some _, caches1) =>
          match llvmArgTypes with
          | [] => .error .indexOutOfRange
          | llvmArgType :: llvmArgTypesRest =>
              let size := typeSize deref caches1 argType
              let align := typeAlign deref size.2 argType
              match copyThroughMemory encodedValue.length llvmArgType size.1 encodedValue with
              | .error fatal => .error fatal
              | .ok argValue =>
                  match decodeValuesLoop deref argValues argTypes llvmArgTypesRest align.2 with
                  | .error fatal => .error fatal
                  | .ok (rest, caches2) => .ok (argValue :: rest, caches2)

/-- Source `ABI_x86_64::decodeValues`: the argument values after the call. -/
def decodeValues (deref : TypeId → Ty) (caches : Caches) (argValues : List Bytes)
    (argTypes : List TypeId) (llvmArgTypes : List Nat) : Except Fatal (List Bytes × Caches) :=
  if argValues.length ≠ argTypes.length then .error .argumentCountMismatch
  else decodeValuesLoop deref argValues argTypes llvmArgTypes caches

/-! ## Source forms of the layout functions -/

/-- The struct case of `getTypeSize` as written in the source, with `getTypeAlign(type)`. -/
theorem getTypeSize_struct (members : Members) :
    getTypeSize (.struct members) =
      if members.isEmpty then getTypeAlign (.struct members)
      else roundUpToAlign (getTypeSizeLoop members 0) (getTypeAlign (.struct members)) := by
  simp [getTypeSize, getTypeAlign]

/-- The array case of `getTypeAlign` as written in the source, with `getTypeSize(type)`. -/
theorem getTypeAlign_array (elementType : Ty) (elementCount : Nat) :
    getTypeAlign (.array elementType elementCount) =
      max (getTypeAlign elementType)
        (if getTypeSize (.array elementType elementCount) ≥ 16 then 16 else 1) := by
  simp [getTypeSize, getTypeAlign]

/-- The `default` case of `getTypeAlign` as written in the source: `getTypeSize(type)`. -/
theorem getTypeAlign_default (type : Ty) (hs : type.isStruct = false)
    (ha : type.isArray = false) : getTypeAlign type = getTypeSize type := by
  cases type <;> simp_all [getTypeSize, getTypeAlign, Ty.isStruct, Ty.isArray]

/-! ## Alignments and rounding -/

theorem land_mask_eq_mod (x : Nat) :
    x &&& 0 = 0 ∧ x &&& 1 = x % 2 ∧ x &&& 3 = x % 4 ∧ x &&& 7 = x % 8 ∧ x &&& 15 = x % 16 ∧
      x &&& 31 = x % 32 := by
  refine ⟨by simp, ?_, ?_, ?_, ?_, ?_⟩
  · simp
  · simpa using Nat.and_pow_two_sub_one_eq_mod x 2
  · simpa using Nat.and_pow_two_sub_one_eq_mod x 3
  · simpa using Nat.and_pow_two_sub_one_eq_mod x 4
  · simpa using Nat.and_pow_two_sub_one_eq_mod x 5

/-- For the alignments that occur, the mask expression is rounding down `position + (align - 1)`
to a multiple of `align`. -/
theorem roundUpToAlign_eq (position align : Nat) (h : IsAbiAlign align) :
    roundUpToAlign position align =
      (position + (align - 1)) - (position + (align - 1)) % align := by
  obtain ⟨_, h1, h3, h7, h15, h31⟩ := land_mask_eq_mod (position + (align - 1))
  rcases h with rfl | rfl | rfl | rfl | rfl | rfl
  · simp [roundUpToAlign, Nat.mod_one]
  · simp only [roundUpToAlign]; rw [h1]
  · simp only [roundUpToAlign]; rw [h3]
  · simp only [roundUpToAlign]; rw [h7]
  · simp only [roundUpToAlign]; rw [h15]
  · simp only [roundUpToAlign]; rw [h31]

/-- Within 64 bits, clearing the bits of the mask `2^k - 1` by subtraction is and-ing with
the 64-bit complement of the mask. -/
theorem sub_land_mask_eq_land_compl (x k : Nat) (hk : k < 64) (hx : x < 2 ^ 64) :
    x - (x &&& (2 ^ k - 1)) = x &&& (2 ^ 64 - 1 - (2 ^ k - 1)) := by
  have hpos : 0 < 2 ^ k := Nat.two_pow_pos k
  have hlt : 2 ^ k - 1 < 2 ^ 64 := by
    have : 2 ^ k < 2 ^ 64 := Nat.pow_lt_pow_right (by decide) hk
    omega
  rw [Nat.and_pow_two_sub_one_eq_mod]
  have h1 : x - x % 2 ^ k = 2 ^ k * (x / 2 ^ k) := by
    have := Nat.div_add_mod x (2 ^ k)
    omega
  have h2 : 2 ^ 64 - 1 - (2 ^ k - 1) = 2 ^ 64 - ((2 ^ k - 1) + 1) := by omega
  rw [h1, h2]
  apply Nat.eq_of_testBit_eq
  intro i
  rw [Nat.testBit_mul_pow_two, Nat.testBit_and, Nat.testBit_two_pow_sub_succ hlt,
    Nat.testBit_two_pow_sub_one]
  by_cases hik : k ≤ i
  · have hdiv : (x / 2 ^ k).testBit (i - k) = x.testBit i := by
      rw [← Nat.shiftRight_eq_div_pow, Nat.testBit_shiftRight]
      congr 1
      omega
    rw [hdiv]
    by_cases hi : i < 64
    · have : ¬ i < k := by omega
      simp [hik, hi, this]
    · have hxi : x.testBit i = false := by
        apply Nat.testBit_lt_two_pow
        have : 2 ^ 64 ≤ 2 ^ i := Nat.pow_le_pow_right (by decide) (by omega)
        omega
      simp [hxi]
  · have : i < k := by omega
    simp [hik, this]

/-- The embedded `roundUpToAlign` is the 64-bit expression
`(position + (align - 1)) & (~(align - 1))` whenever the sum does not wrap. -/
theorem roundUpToAlign_eq_mask64 (position align : Nat) (h : IsAbiAlign align)
    (hx : position + (align - 1) < 2 ^ 64) :
    roundUpToAlign position align =
      (position + (align - 1)) &&& (2 ^ 64 - 1 - (align - 1)) := by
  unfold roundUpToAlign
  rcases h with rfl | rfl | rfl | rfl | rfl | rfl
  · exact sub_land_mask_eq_land_compl _ 0 (by decide) hx
  · exact sub_land_mask_eq_land_compl _ 1 (by decide) hx
  · exact sub_land_mask_eq_land_compl _ 2 (by decide) hx
  · exact sub_land_mask_eq_land_compl _ 3 (by decide) hx
  · exact sub_land_mask_eq_land_compl _ 4 (by decide) hx
  · exact sub_land_mask_eq_land_compl _ 5 (by decide) hx

theorem le_roundUpToAlign (position align : Nat) (h : IsAbiAlign align) :
    position ≤ roundUpToAlign position align := by
  rw [roundUpToAlign_eq position align h]
  rcases h with rfl | rfl | rfl | rfl | rfl | rfl <;> omega

theorem roundUpToAlign_lt (position align : Nat) (h : IsAbiAlign align) :
    roundUpToAlign position align < position + align := by
  rw [roundUpToAlign_eq position align h]
  rcases h with rfl | rfl | rfl | rfl | rfl | rfl <;> omega

theorem dvd_roundUpToAlign (position align : Nat) (h : IsAbiAlign align) :
    align ∣ roundUpToAlign position align := by
  rw [roundUpToAlign_eq position align h]
  rcases h with rfl | rfl | rfl | rfl | rfl | rfl <;> omega

theorem roundUpToAlign_zero (align : Nat) (h : IsAbiAlign align) :
    roundUpToAlign 0 align = 0 := by
  rcases h with rfl | rfl | rfl | rfl | rfl | rfl <;> decide

theorem roundUpToAlign_of_dvd (position align : Nat) (h : IsAbiAlign align)
    (hd : align ∣ position) : roundUpToAlign position align = position := by
  rw [roundUpToAlign_eq position align h]
  rcases h with rfl | rfl | rfl | rfl | rfl | rfl <;> omega

theorem IsAbiAlign.max {a b : Nat} (ha : IsAbiAlign a) (hb : IsAbiAlign b) :
    IsAbiAlign (Nat.max a b) := by
  rcases ha with rfl | rfl | rfl | rfl | rfl | rfl <;>
    rcases hb with rfl | rfl | rfl | rfl | rfl | rfl <;> simp [IsAbiAlign]

mutual
theorem getTypeAlign_isAbiAlign : ∀ type : Ty, IsAbiAlign (getTypeAlign type)
  | .pointer => by simp [getTypeAlign, IsAbiAlign]
  | .integer k => by cases k <;> simp [getTypeAlign, integerKindSize, IsAbiAlign]
  | .floatingPoint k => by cases k <;> simp [getTypeAlign, floatingPointKindSize, IsAbiAlign]
  | .complex k => by cases k <;> simp [getTypeAlign, complexKindSize, IsAbiAlign]
  | .struct members => by
      simp only [getTypeAlign]
      exact getTypeAlignLoop_isAbiAlign members 1 (by simp [IsAbiAlign])
  | .array elementType elementCount => by
      have ih := getTypeAlign_isAbiAlign elementType
      simp only [getTypeAlign]
      apply IsAbiAlign.max ih
      split <;> simp [IsAbiAlign]
theorem getTypeAlignLoop_isAbiAlign :
    ∀ (members : List (StructMember Ty)) (a : Nat), IsAbiAlign a →
      IsAbiAlign (getTypeAlignLoop members a)
  | [], a, ha => by simp only [getTypeAlignLoop]; exact ha
  | member :: rest, a, ha => by
      simp only [getTypeAlignLoop]
      exact getTypeAlignLoop_isAbiAlign rest _
        (IsAbiAlign.max ha (getTypeAlign_isAbiAlign member.type))
end

/-! ## Merge -/

/-- C4: `merge` is commutative over the eight argument classes. -/
theorem merge_comm (a b : ArgClass) : merge a b = merge b a := by
  cases a <;> cases b <;> rfl

/-- C5 fails as stated: with `Integer`, `X87`, `Sse` the two groupings give `Integer` and
`Memory`. -/
theorem merge_not_assoc :
    merge (merge .Integer .X87) .Sse = .Integer ∧
      merge .Integer (merge .X87 .Sse) = .Memory ∧
      merge (merge .Integer .X87) .Sse ≠ merge .Integer (merge .X87 .Sse) := by
  decide

/-- C5 (amended): `merge` is associative on every triple that has no `Integer` in it, and on
every triple that has none of `X87`, `X87Up`, `ComplexX87` in it. -/
theorem merge_assoc_of_no_integer_or_no_x87 (a b c : ArgClass)
    (h : (a ≠ .Integer ∧ b ≠ .Integer ∧ c ≠ .Integer) ∨
      (a.isX87Class = false ∧ b.isX87Class = false ∧ c.isX87Class = false)) :
    merge (merge a b) c = merge a (merge b c) := by
  revert h
  cases a <;> cases b <;> cases c <;> decide

/-- C5 (amended) at `Sse, X87, SseUp` (no `Integer`) and at `Integer, Sse, SseUp` (no X87 class). -/
theorem merge_assoc_of_no_integer_or_no_x87_witness :
    merge (merge .Sse .X87) .SseUp = merge .Sse (merge .X87 .SseUp) ∧
      merge (merge .Integer .Sse) .SseUp = merge .Integer (merge .Sse .SseUp) :=
  ⟨merge_assoc_of_no_integer_or_no_x87 .Sse .X87 .SseUp (Or.inl (by decide)),
    merge_assoc_of_no_integer_or_no_x87 .Integer .Sse .SseUp (Or.inr (by decide))⟩

/-- C6: `NoClass` is a two-sided identity of `merge` and `Memory` is absorbing on both
sides. -/
theorem merge_noClass_memory (a : ArgClass) :
    merge .NoClass a = a ∧ merge a .NoClass = a ∧
      merge .Memory a = .Memory ∧ merge a .Memory = .Memory := by
  cases a <;> decide

/-! ## Size and alignment -/

/-- C8: the alignment of every type is at least 1 and a power of two, so the assertion
`isPowerOf2(align)` of `roundUpToAlign` holds at every call that passes a type alignment. -/
theorem getTypeAlign_pos_isPowerOf2 (type : Ty) :
    1 ≤ getTypeAlign type ∧ (∃ k : Nat, getTypeAlign type = 2 ^ k) ∧
      isPowerOf2 (getTypeAlign type) = true := by
  rcases getTypeAlign_isAbiAlign type with h | h | h | h | h | h <;> rw [h]
  · exact ⟨by decide, ⟨0, by decide⟩, by decide⟩
  · exact ⟨by decide, ⟨1, by decide⟩, by decide⟩
  · exact ⟨by decide, ⟨2, by decide⟩, by decide⟩
  · exact ⟨by decide, ⟨3, by decide⟩, by decide⟩
  · exact ⟨by decide, ⟨4, by decide⟩, by decide⟩
  · exact ⟨by decide, ⟨5, by decide⟩, by decide⟩

/-- The alignment divides the size of every scalar and of every struct: the struct branch of
`getTypeSize` ends with the rounding to the struct's alignment. -/
theorem getTypeAlign_dvd_getTypeSize_of_not_array :
    ∀ type : Ty, type.isArray = false → getTypeAlign type ∣ getTypeSize type
  | .pointer, _ => by simp [getTypeAlign, getTypeSize]
  | .integer k, _ => by simp [getTypeAlign, getTypeSize]
  | .floatingPoint k, _ => by simp [getTypeAlign, getTypeSize]
  | .complex k, _ => by simp [getTypeAlign, getTypeSize]
  | .struct members, _ => by
      have ha := getTypeAlign_isAbiAlign (.struct members)
      rw [getTypeSize_struct]
      split
      · exact dvd_rfl
      · exact dvd_roundUpToAlign _ _ ha
  | .array _ _, h => by simp [Ty.isArray] at h

/-- C7, the code at the failing input `Array[Int32 x 5]`: the array branch of `getTypeSize`
(marked "this is probably wrong" in the source) returns 20 with no padding, `getTypeAlign`
returns 16, and 20 is not a multiple of 16; the struct branch does pad: the struct that
wraps the array has size 32. -/
theorem getTypeSize_array_not_multiple_of_align :
    getTypeSize (.array (.integer .Int32) 5) = 20 ∧
      getTypeAlign (.array (.integer .Int32) 5) = 16 ∧
      ¬ (getTypeAlign (.array (.integer .Int32) 5) ∣ getTypeSize (.array (.integer .Int32) 5)) ∧
      getTypeSize (.struct [⟨.array (.integer .Int32) 5, 0⟩]) = 32 ∧
      getTypeAlign (.struct [⟨.array (.integer .Int32) 5, 0⟩]) = 16 := by
  decide

/-! ## Struct offsets -/

theorem getStructOffsetsLoop_append (members : Members) :
    ∀ (cursor : Nat) (offsets : List Nat),
      getStructOffsetsLoop members cursor offsets =
        offsets ++ getStructOffsetsLoop members cursor [] := by
  induction members with
  | nil => intro cursor offsets; simp [getStructOffsetsLoop]
  | cons member rest ih =>
      intro cursor offsets
      simp only [getStructOffsetsLoop]
      rw [ih _ (offsets ++ _), ih _ ([] ++ _)]
      simp

theorem getStructOffsetsLoop_cons (member : StructMember Ty) (rest : Members) (cursor : Nat) :
    getStructOffsetsLoop (member :: rest) cursor [] =
      resolvedOffset member cursor ::
        getStructOffsetsLoop rest (resolvedOffset member cursor + getTypeSize member.type) [] := by
  simp only [getStructOffsetsLoop, resolvedOffset]
  rw [getStructOffsetsLoop_append]
  simp

theorem le_resolvedOffset (member : StructMember Ty) (cursor : Nat) :
    cursor ≤ resolvedOffset member cursor := by
  unfold resolvedOffset
  split
  · exact le_roundUpToAlign _ _ (getTypeAlign_isAbiAlign _)
  · omega

theorem getStructOffsetsLoop_length (members : Members) :
    ∀ cursor : Nat, (getStructOffsetsLoop members cursor []).length = members.length := by
  induction members with
  | nil => intro cursor; simp [getStructOffsetsLoop]
  | cons member rest ih =>
      intro cursor
      rw [getStructOffsetsLoop_cons]
      simp [ih]

theorem le_of_mem_getStructOffsetsLoop (members : Members) :
    ∀ (cursor x : Nat), x ∈ getStructOffsetsLoop members cursor [] → cursor ≤ x := by
  induction members with
  | nil => intro cursor x hx; simp [getStructOffsetsLoop] at hx
  | cons member rest ih =>
      intro cursor x hx
      rw [getStructOffsetsLoop_cons] at hx
      have h1 := le_resolvedOffset member cursor
      rcases List.mem_cons.mp hx with h | h
      · omega
      · have := ih _ x h
        omega

theorem getStructOffsetsLoop_pairwise (members : Members) :
    ∀ cursor : Nat, List.Pairwise (fun a b => a ≤ b) (getStructOffsetsLoop members cursor []) := by
  induction members with
  | nil => intro cursor; simp [getStructOffsetsLoop]
  | cons member rest ih =>
      intro cursor
      rw [getStructOffsetsLoop_cons]
      refine List.Pairwise.cons ?_ (ih _)
      intro x hx
      have := le_of_mem_getStructOffsetsLoop rest _ x hx
      omega

theorem getStructOffsetsLoop_adjacent (members : Members) :
    ∀ (cursor i a b : Nat) (member : StructMember Ty),
      (getStructOffsetsLoop members cursor [])[i]? = some a →
      (getStructOffsetsLoop members cursor [])[i + 1]? = some b →
      members[i]? = some member → a + getTypeSize member.type ≤ b := by
  induction members with
  | nil => intro cursor i a b member _ _ hm; simp at hm
  | cons first rest ih =>
      intro cursor i a b member ha hb hm
      rw [getStructOffsetsLoop_cons] at ha hb
      cases i with
      | zero =>
          simp only [List.getElem?_cons_zero, Option.some.injEq] at ha hm
          simp only [zero_add, List.getElem?_cons_succ] at hb
          have hmem : b ∈ getStructOffsetsLoop rest
              (resolvedOffset first cursor + getTypeSize first.type) [] :=
            List.getElem?_mem hb
          have := le_of_mem_getStructOffsetsLoop rest _ b hmem
          subst ha hm
          exact this
      | succ j =>
          simp only [List.getElem?_cons_succ] at ha hb hm
          exact ih _ j a b member ha hb hm

/-- C9: `getStructOffsets` returns one offset per member, the offsets are non-decreasing,
and each member ends at or before the offset of the next one. -/
theorem getStructOffsets_length_sorted_disjoint (members : Members) :
    (getStructOffsets members).length = members.length ∧
      List.Pairwise (fun a b => a ≤ b) (getStructOffsets members) ∧
      ∀ (i a b : Nat) (member : StructMember Ty),
        (getStructOffsets members)[i]? = some a →
        (getStructOffsets members)[i + 1]? = some b →
        members[i]? = some member → a + getTypeSize member.type ≤ b :=
  ⟨getStructOffsetsLoop_length members 0, getStructOffsetsLoop_pairwise members 0,
    getStructOffsetsLoop_adjacent members 0⟩

/-- C9 at `Struct{Int8, Int32, Int64 at 24}`: the `Int32` at offset 4 ends before offset 24. -/
theorem getStructOffsets_length_sorted_disjoint_witness :
    getStructOffsets [⟨.integer .Int8, 0⟩, ⟨.integer .Int32, 0⟩, ⟨.integer .Int64, 24⟩] =
        [0, 4, 24] ∧
      4 + getTypeSize (.integer .Int32) ≤ 24 :=
  ⟨by decide,
    (getStructOffsets_length_sorted_disjoint
      [⟨.integer .Int8, 0⟩, ⟨.integer .Int32, 0⟩, ⟨.integer .Int64, 24⟩]).2.2
      1 4 24 ⟨.integer .Int32, 0⟩ (by decide) (by decide) rfl⟩

/-! ## Unaligned fields -/

theorem hasUnalignedFieldsLoop_cons_eq_false (member : StructMember Ty) (rest : Members)
    (cursor : Nat) :
    hasUnalignedFieldsLoop (member :: rest) cursor = false ↔
      (member.offset = 0 ∨
          member.offset = roundUpToAlign cursor (getTypeAlign member.type)) ∧
        hasUnalignedFields member.type = false ∧
        hasUnalignedFieldsLoop rest
          (roundUpToAlign cursor (getTypeAlign member.type) + getTypeSize member.type) = false := by
  simp only [hasUnalignedFieldsLoop]
  by_cases h0 : member.offset = 0
  · simp [h0]
  · by_cases h1 : member.offset = roundUpToAlign cursor (getTypeAlign member.type)
    · simp [h0, h1]
    · simp [h0, h1]

theorem withoutExplicitOffsets_cons (member : StructMember Ty) (rest : Members) :
    withoutExplicitOffsets (member :: rest) =
      { member with offset := 0 } :: withoutExplicitOffsets rest := rfl

/-- Without explicit offsets every member sits at the cursor rounded up to its alignment. -/
theorem getStructOffsetsLoop_withoutExplicitOffsets_cons (member : StructMember Ty)
    (rest : Members) (cursor : Nat) :
    getStructOffsetsLoop (withoutExplicitOffsets (member :: rest)) cursor [] =
      roundUpToAlign cursor (getTypeAlign member.type) ::
        getStructOffsetsLoop (withoutExplicitOffsets rest)
          (roundUpToAlign cursor (getTypeAlign member.type) + getTypeSize member.type) [] := by
  have hr : resolvedOffset { member with offset := 0 } cursor =
      roundUpToAlign cursor (getTypeAlign member.type) := by
    unfold resolvedOffset
    rcases Nat.eq_zero_or_pos cursor with h | h
    · subst h
      simp [roundUpToAlign_zero _ (getTypeAlign_isAbiAlign member.type)]
    · simp [h]
  rw [withoutExplicitOffsets_cons, getStructOffsetsLoop_cons, hr]

/-- What the loop of `hasUnalignedFields` decides, from any starting cursor. -/
theorem hasUnalignedFieldsLoop_eq_true_iff (members : Members) :
    ∀ cursor : Nat, hasUnalignedFieldsLoop members cursor = true ↔
      ∃ (i : Nat) (member : StructMember Ty), members[i]? = some member ∧
        ((member.offset ≠ 0 ∧ member.offset ≠
            (getStructOffsetsLoop (withoutExplicitOffsets members) cursor []).getD i 0) ∨
          hasUnalignedFields member.type = true) := by
  induction members with
  | nil => intro cursor; simp [hasUnalignedFieldsLoop]
  | cons first rest ih =>
      intro cursor
      rw [getStructOffsetsLoop_withoutExplicitOffsets_cons]
      constructor
      · intro h
        by_cases hf : hasUnalignedFieldsLoop (first :: rest) cursor = false
        · rw [hf] at h; exact absurd h (by decide)
        · rw [hasUnalignedFieldsLoop_cons_eq_false] at hf
          by_cases h1 : first.offset = 0 ∨
              first.offset = roundUpToAlign cursor (getTypeAlign first.type)
          · by_cases h2 : hasUnalignedFields first.type = false
            · have h3 : hasUnalignedFieldsLoop rest
                  (roundUpToAlign cursor (getTypeAlign first.type) + getTypeSize first.type) =
                    true := by
                by_contra hc
                exact hf ⟨h1, h2, by simpa using hc⟩
              obtain ⟨i, member, hm, hc⟩ := (ih _).mp h3
              exact ⟨i + 1, member, by simpa using hm, by simpa using hc⟩
            · exact ⟨0, first, by simp, Or.inr (by simpa using h2)⟩
          · refine ⟨0, first, by simp, Or.inl ?_⟩
            simp only [List.getD_cons_zero]
            exact ⟨fun h => h1 (Or.inl h), fun h => h1 (Or.inr h)⟩
      · rintro ⟨i, member, hm, hc⟩
        by_contra hcontra
        have hf : hasUnalignedFieldsLoop (first :: rest) cursor = false := by
          simpa using hcontra
        rw [hasUnalignedFieldsLoop_cons_eq_false] at hf
        obtain ⟨h1, h2, h3⟩ := hf
        cases i with
        | zero =>
            simp only [List.getElem?_cons_zero, Option.some.injEq] at hm
            subst hm
            simp only [List.getD_cons_zero] at hc
            rcases hc with ⟨ha, hb⟩ | hc
            · rcases h1 with h1 | h1
              · exact ha h1
              · exact hb h1
            · rw [h2] at hc; exact absurd hc (by decide)
        | succ j =>
            simp only [List.getElem?_cons_succ] at hm
            simp only [List.getD_cons_succ] at hc
            have : hasUnalignedFieldsLoop rest
                (roundUpToAlign cursor (getTypeAlign first.type) + getTypeSize first.type) =
                  true := (ih _).mpr ⟨j, member, hm, hc⟩
            rw [h3] at this
            exact absurd this (by decide)

theorem memberExplicitlyMisplaced_eq_true_iff (members : Members) (i : Nat) :
    memberExplicitlyMisplaced members i = true ↔
      ∃ member : StructMember Ty, members[i]? = some member ∧
        ((member.offset ≠ 0 ∧ member.offset ≠
            (getStructOffsetsLoop (withoutExplicitOffsets members) 0 []).getD i 0) ∨
          hasUnalignedFields member.type = true) := by
  unfold memberExplicitlyMisplaced getStructOffsets
  cases hm : members[i]? with
  | none => simp
  | some member => simp

/-- When the loop of `hasUnalignedFields` finds nothing, every member sits at the end of
the previous one rounded up to its alignment, and no member type has unaligned fields. -/
theorem resolved_natural_of_hasUnalignedFieldsLoop_false (members : Members) :
    ∀ cursor : Nat, hasUnalignedFieldsLoop members cursor = false →
      ∀ (i : Nat) (member : StructMember Ty), members[i]? = some member →
        (getStructOffsetsLoop members cursor []).getD i 0 =
            roundUpToAlign (previousEndFrom members cursor i) (getTypeAlign member.type) ∧
          hasUnalignedFields member.type = false := by
  induction members with
  | nil => intro cursor _ i member hm; simp at hm
  | cons first rest ih =>
      intro cursor hf i member hm
      rw [hasUnalignedFieldsLoop_cons_eq_false] at hf
      obtain ⟨h1, h2, h3⟩ := hf
      have hr : resolvedOffset first cursor =
          roundUpToAlign cursor (getTypeAlign first.type) := by
        unfold resolvedOffset
        split
        · rfl
        · rcases h1 with h1 | h1
          · have hc : cursor = 0 := by omega
            subst hc
            rw [h1, roundUpToAlign_zero _ (getTypeAlign_isAbiAlign first.type)]
          · exact h1
      rw [getStructOffsetsLoop_cons, hr]
      cases i with
      | zero =>
          simp only [List.getElem?_cons_zero, Option.some.injEq] at hm
          subst hm
          exact ⟨by simp [previousEndFrom], h2⟩
      | succ j =>
          simp only [List.getElem?_cons_succ] at hm
          obtain ⟨ih1, ih2⟩ := ih _ h3 j member hm
          refine ⟨?_, ih2⟩
          simp only [List.getD_cons_succ]
          rw [ih1]
          congr 1
          cases j with
          | zero =>
              simp [previousEndFrom, getStructOffsetsLoop_cons, hr]
          | succ k =>
              simp [previousEndFrom, getStructOffsetsLoop_cons, hr]

/-- C10 fails as stated: in `Struct{Int64 at 0, Int32 at explicit offset 4}` the second
member is resolved to offset 8, the end of the first member rounded up to 4, and yet
`hasUnalignedFields` is true because the explicit offset 4 is not 8. -/
theorem hasUnalignedFields_true_with_natural_resolved_offsets :
    getStructOffsets [⟨.integer .Int64, 0⟩, ⟨.integer .Int32, 4⟩] = [0, 8] ∧
      hasUnalignedFields (.struct [⟨.integer .Int64, 0⟩, ⟨.integer .Int32, 4⟩]) = true ∧
      ¬ ∃ i : Nat, i < 2 ∧
        memberOffNaturalOffset [⟨.integer .Int64, 0⟩, ⟨.integer .Int32, 4⟩] i = true := by
  refine ⟨by decide, by decide, ?_⟩
  rintro ⟨i, hi, h⟩
  interval_cases i
  · revert h; decide
  · revert h; decide

/-- C10 (amended): a struct has unaligned fields exactly when some member has a nonzero
explicit offset different from its offset in the layout without explicit offsets, or has a
type with unaligned fields; a member whose resolved offset differs from the rounded end of
the previous member makes the struct unaligned; a non-struct type never has unaligned
fields. -/
theorem hasUnalignedFields_iff_explicitly_misplaced (members : Members) :
    (hasUnalignedFields (.struct members) = true ↔
        ∃ i : Nat, i < members.length ∧ memberExplicitlyMisplaced members i = true) ∧
      ((∃ i : Nat, i < members.length ∧ memberOffNaturalOffset members i = true) →
        hasUnalignedFields (.struct members) = true) ∧
      ∀ type : Ty, type.isStruct = false → hasUnalignedFields type = false := by
  refine ⟨?_, ?_, ?_⟩
  · simp only [hasUnalignedFields]
    rw [hasUnalignedFieldsLoop_eq_true_iff]
    constructor
    · rintro ⟨i, member, hm, hc⟩
      refine ⟨i, ?_, (memberExplicitlyMisplaced_eq_true_iff members i).mpr ⟨member, hm, hc⟩⟩
      exact (List.getElem?_eq_some.mp hm).1
    · rintro ⟨i, _, h⟩
      obtain ⟨member, hm, hc⟩ := (memberExplicitlyMisplaced_eq_true_iff members i).mp h
      exact ⟨i, member, hm, hc⟩
  · rintro ⟨i, hi, h⟩
    by_contra hcontra
    have hf : hasUnalignedFieldsLoop members 0 = false := by
      simpa [hasUnalignedFields] using hcontra
    unfold memberOffNaturalOffset at h
    cases hm : members[i]? with
    | none => rw [hm] at h; simp at h
    | some member =>
        rw [hm] at h
        obtain ⟨h1, h2⟩ := resolved_natural_of_hasUnalignedFieldsLoop_false members 0 hf i member hm
        simp only [getStructOffsets, previousMemberEnd] at h
        rw [h1, h2] at h
        simp at h
  · intro type ht
    cases type <;> simp_all [hasUnalignedFields, Ty.isStruct]

/-- C10 (amended) at `Struct{Int8, Int32 at 8}`: the `Int32` is resolved to 8, not to 4. -/
theorem hasUnalignedFields_iff_explicitly_misplaced_witness :
    hasUnalignedFields (.struct [⟨.integer .Int8, 0⟩, ⟨.integer .Int32, 8⟩]) = true :=
  (hasUnalignedFields_iff_explicitly_misplaced
    [⟨.integer .Int8, 0⟩, ⟨.integer .Int32, 8⟩]).2.1 ⟨1, by decide, by decide⟩

/-! ## Classification -/

/-- Adding a field keeps the two slots in step: the low slot is `Memory` exactly when the
high slot is. -/
theorem addField_low_memory_iff (c : Classification) (offset : Nat) (fieldClass : ArgClass)
    (h : c.low = .Memory ↔ c.high = .Memory) :
    (c.addField offset fieldClass).low = .Memory ↔
      (c.addField offset fieldClass).high = .Memory := by
  obtain ⟨low, high⟩ := c
  by_cases ho : offset < 8
  · simp only [Classification.addField, Classification.isMemory, Classification.get,
      Classification.set, ho, if_true]
    revert h
    cases low <;> cases high <;> cases fieldClass <;> decide
  · simp only [Classification.addField, Classification.isMemory, Classification.get,
      Classification.set, ho, if_false]
    revert h
    cases low <;> cases high <;> cases fieldClass <;> decide

theorem foldl_preserves {α β : Type} (P : α → Prop) (f : α → β → α)
    (hf : ∀ a b, P a → P (f a b)) : ∀ (l : List β) (a : α), P a → P (l.foldl f a) := by
  intro l
  induction l with
  | nil => intro a ha; exact ha
  | cons b rest ih => intro a ha; exact ih _ (hf a b ha)

mutual
/-- Every property of classifications that `addField` preserves is preserved by
`classifyType`. -/
theorem classifyType_preserves (P : Classification → Prop)
    (hP : ∀ c offset fieldClass, P c → P (Classification.addField c offset fieldClass)) :
    ∀ (type : Ty) (c : Classification) (offset : Nat), P c → P (classifyType c type offset)
  | .pointer, c, offset, hc => by
      simp only [classifyType]; exact hP _ _ _ hc
  | .integer _, c, offset, hc => by
      simp only [classifyType]; exact hP _ _ _ hc
  | .floatingPoint k, c, offset, hc => by
      simp only [classifyType]
      split
      · exact hP _ _ _ (hP _ _ _ hc)
      · exact hP _ _ _ hc
  | .complex k, c, offset, hc => by
      simp only [classifyType]
      split
      · exact hP _ _ _ (hP _ _ _ hc)
      · split
        · exact hP _ _ _ (hP _ _ _ hc)
        · split
          · exact hP _ _ _ (hP _ _ _ hc)
          · exact hc
  | .array elementType elementCount, c, offset, hc => by
      simp only [classifyType]
      exact foldl_preserves P _
        (fun a i ha => classifyType_preserves P hP elementType a _ ha) _ c hc
  | .struct members, c, offset, hc => by
      simp only [classifyType]
      exact classifyTypeLoop_preserves P hP members c offset 0 hc
theorem classifyTypeLoop_preserves (P : Classification → Prop)
    (hP : ∀ c offset fieldClass, P c → P (Classification.addField c offset fieldClass)) :
    ∀ (members : List (StructMember Ty)) (c : Classification) (offset structOffset : Nat),
      P c → P (classifyTypeLoop c members offset structOffset)
  | [], c, offset, structOffset, hc => by
      simp only [classifyTypeLoop]; exact hc
  | member :: rest, c, offset, structOffset, hc => by
      simp only [classifyTypeLoop]
      exact classifyTypeLoop_preserves P hP rest _ offset _
        (classifyType_preserves P hP member.type c _ hc)
end

/-- Classifying from the empty classification gives a low slot that is `Memory` exactly
when the high slot is. -/
theorem classifyType_empty_low_memory_iff (type : Ty) (offset : Nat) :
    (classifyType Classification.empty type offset).low = .Memory ↔
      (classifyType Classification.empty type offset).high = .Memory :=
  classifyType_preserves (fun c => c.low = .Memory ↔ c.high = .Memory)
    addField_low_memory_iff type Classification.empty offset (by decide)

theorem classify_of_guard (type : Ty)
    (h : getTypeSize type > 32 ∨ hasUnalignedFields type = true) :
    classify type = ⟨.Memory, .Memory⟩ := by
  unfold classify
  rw [if_pos (by simpa using h)]
  decide

theorem classify_of_not_guard (type : Ty) (hs : getTypeSize type ≤ 32)
    (hu : hasUnalignedFields type = false) :
    classify type = classifyType Classification.empty type 0 := by
  unfold classify
  rw [if_neg]
  simp only [Bool.or_eq_true, decide_eq_true_eq, hu, not_or]
  exact ⟨by omega, by decide⟩

/-- C1 fails as stated: an array of two long doubles has size 32 and no unaligned fields,
and is classified `{Memory, Memory}` (the second `X87` meets `X87Up` in the high slot). -/
theorem classify_memory_without_guard :
    getTypeSize (.array (.floatingPoint .LongDouble) 2) = 32 ∧
      hasUnalignedFields (.array (.floatingPoint .LongDouble) 2) = false ∧
      classify (.array (.floatingPoint .LongDouble) 2) = ⟨.Memory, .Memory⟩ := by
  decide

/-- An `Integer` or `SSE` field keeps both slots among `NoClass`, `Integer`, `SSE`. -/
theorem addField_isIntegerOrSse (c : Classification) (offset : Nat) (fieldClass : ArgClass)
    (hf : fieldClass = .Integer ∨ fieldClass = .Sse) (h : c.IsIntegerOrSse) :
    (c.addField offset fieldClass).IsIntegerOrSse := by
  obtain ⟨low, high⟩ := c
  unfold Classification.IsIntegerOrSse at h ⊢
  by_cases ho : offset < 8
  · simp only [Classification.addField, Classification.isMemory, Classification.get,
      Classification.set, ho, if_true]
    revert h
    rcases hf with rfl | rfl <;> cases low <;> cases high <;> decide
  · simp only [Classification.addField, Classification.isMemory, Classification.get,
      Classification.set, ho, if_false]
    revert h
    rcases hf with rfl | rfl <;> cases low <;> cases high <;> decide

mutual
/-- Classifying a type without a long double field keeps both slots among `NoClass`,
`Integer`, `SSE`: every field it adds is `Integer` or `SSE`. -/
theorem classifyType_isIntegerOrSse :
    ∀ (type : Ty) (c : Classification) (offset : Nat), containsLongDouble type = false →
      c.IsIntegerOrSse → (classifyType c type offset).IsIntegerOrSse
  | .pointer, c, offset, _, hc => by
      simp only [classifyType]
      exact addField_isIntegerOrSse _ _ _ (Or.inl rfl) hc
  | .integer _, c, offset, _, hc => by
      simp only [classifyType]
      exact addField_isIntegerOrSse _ _ _ (Or.inl rfl) hc
  | .floatingPoint k, c, offset, hk, hc => by
      have hne : k ≠ FloatingPointKind.LongDouble := by
        simpa [containsLongDouble] using hk
      simp only [classifyType, hne, if_false]
      exact addField_isIntegerOrSse _ _ _ (Or.inr rfl) hc
  | .complex k, c, offset, hk, hc => by
      have hne : k ≠ FloatingPointKind.LongDouble := by
        simpa [containsLongDouble] using hk
      simp only [classifyType, hne, if_false]
      split
      · exact addField_isIntegerOrSse _ _ _ (Or.inr rfl)
          (addField_isIntegerOrSse _ _ _ (Or.inr rfl) hc)
      · split
        · exact addField_isIntegerOrSse _ _ _ (Or.inr rfl)
            (addField_isIntegerOrSse _ _ _ (Or.inr rfl) hc)
        · exact hc
  | .array elementType elementCount, c, offset, hk, hc => by
      have he : containsLongDouble elementType = false := by
        simpa [containsLongDouble] using hk
      simp only [classifyType]
      exact foldl_preserves Classification.IsIntegerOrSse _
        (fun a i ha => classifyType_isIntegerOrSse elementType a _ he ha) _ c hc
  | .struct members, c, offset, hk, hc => by
      have hm : containsLongDoubleMembers members = false := by
        simpa [containsLongDouble] using hk
      simp only [classifyType]
      exact classifyTypeLoop_isIntegerOrSse members c offset 0 hm hc
theorem classifyTypeLoop_isIntegerOrSse :
    ∀ (members : List (StructMember Ty)) (c : Classification) (offset structOffset : Nat),
      containsLongDoubleMembers members = false → c.IsIntegerOrSse →
      (classifyTypeLoop c members offset structOffset).IsIntegerOrSse
  | [], c, offset, structOffset, _, hc => by
      simp only [classifyTypeLoop]; exact hc
  | member :: rest, c, offset, structOffset, hk, hc => by
      have hboth : containsLongDouble member.type = false ∧
          containsLongDoubleMembers rest = false := by
        simpa [containsLongDoubleMembers] using hk
      simp only [classifyTypeLoop]
      exact classifyTypeLoop_isIntegerOrSse rest _ offset _ hboth.2
        (classifyType_isIntegerOrSse member.type c _ hboth.1 hc)
end

/-- A type without a long double field that passes the guard of `classify` (at most 32 bytes,
no unaligned fields) gets one of `NoClass`, `Integer`, `SSE` in each slot, never `Memory`. -/
theorem classify_isIntegerOrSse_of_not_guard (type : Ty) (hk : containsLongDouble type = false)
    (hs : getTypeSize type ≤ 32) (hu : hasUnalignedFields type = false) :
    (classify type).IsIntegerOrSse ∧ classify type ≠ ⟨.Memory, .Memory⟩ := by
  have hreg : (classify type).IsIntegerOrSse := by
    rw [classify_of_not_guard type hs hu]
    exact classifyType_isIntegerOrSse type Classification.empty 0 hk ⟨Or.inl rfl, Or.inl rfl⟩
  refine ⟨hreg, ?_⟩
  intro hm
  rw [hm] at hreg
  obtain ⟨hlow, _⟩ := hreg
  simp at hlow

/-- C1 (amended): a type larger than 32 bytes or with unaligned fields is classified
`{Memory, Memory}`; a type of at most 16 bytes without a long double or complex long double
field is classified `{Memory, Memory}` exactly when it has unaligned fields; and a lone long
double (16 bytes) is classified `{X87, X87Up}`. -/
theorem classify_memory_iff_unaligned_of_small (type : Ty) :
    ((getTypeSize type > 32 ∨ hasUnalignedFields type = true) →
        classify type = ⟨.Memory, .Memory⟩) ∧
      (containsLongDouble type = false → getTypeSize type ≤ 16 →
        (classify type = ⟨.Memory, .Memory⟩ ↔ hasUnalignedFields type = true)) ∧
      classify (.floatingPoint .LongDouble) = ⟨.X87, .X87Up⟩ := by
  refine ⟨classify_of_guard type, ?_, by decide⟩
  intro hk hs
  constructor
  · intro hm
    cases hu : hasUnalignedFields type with
    | true => rfl
    | false =>
        exact absurd hm (classify_isIntegerOrSse_of_not_guard type hk (by omega) hu).2
  · intro hu
    exact classify_of_guard type (Or.inr hu)

/-- C1 (amended) at `Struct{Int64, Int32}` (16 bytes, no unaligned fields), which is not
`{Memory, Memory}`, and at `Struct{Int8, Int32 at explicit offset 8}`, which is. -/
theorem classify_memory_iff_unaligned_of_small_witness :
    classify (.struct [⟨.integer .Int64, 0⟩, ⟨.integer .Int32, 0⟩]) ≠ ⟨.Memory, .Memory⟩ ∧
      classify (.struct [⟨.integer .Int8, 0⟩, ⟨.integer .Int32, 8⟩]) = ⟨.Memory, .Memory⟩ :=
  ⟨fun h =>
      absurd
        (((classify_memory_iff_unaligned_of_small
          (.struct [⟨.integer .Int64, 0⟩, ⟨.integer .Int32, 0⟩])).2.1 rfl (by decide)).mp h)
        (by decide),
    (classify_memory_iff_unaligned_of_small
      (.struct [⟨.integer .Int8, 0⟩, ⟨.integer .Int32, 8⟩])).1 (Or.inr (by decide))⟩

/-- C2: a type larger than 32 bytes or with unaligned fields is classified
`{Memory, Memory}`, and `computeAbiType` on a struct with that property returns null. -/
theorem classify_memory_of_large_or_unaligned (type : Ty)
    (h : getTypeSize type > 32 ∨ hasUnalignedFields type = true) :
    classify type = ⟨.Memory, .Memory⟩ ∧
      (type.isStruct = true → computeAbiType type = .ok none) := by
  have hc := classify_of_guard type h
  refine ⟨hc, ?_⟩
  intro hs
  unfold computeAbiType
  rw [hs]
  by_cases hp : isPointerInt32Struct type = true
  · simp [hp]
  · simp [hp, hc, Classification.isMemory]

/-- C2 at `Array[Int64 x 5]` (size 40) and at the struct that wraps it. -/
theorem classify_memory_of_large_or_unaligned_witness :
    getTypeSize (.array (.integer .Int64) 5) = 40 ∧
      classify (.array (.integer .Int64) 5) = ⟨.Memory, .Memory⟩ ∧
      computeAbiType (.struct [⟨.array (.integer .Int64) 5, 0⟩]) = .ok none :=
  ⟨by decide,
    (classify_memory_of_large_or_unaligned (.array (.integer .Int64) 5)
      (Or.inl (by decide))).1,
    (classify_memory_of_large_or_unaligned (.struct [⟨.array (.integer .Int64) 5, 0⟩])
      (Or.inl (by decide))).2 rfl⟩

/-- C3, the code at the failing input `Struct{Int64, Int64, Int64}` (size 24, no unaligned
fields): the third `Int64`, at offset 16, is merged into the high slot, the classification
is `{Integer, Integer}` instead of `{Memory, Memory}`, and `computeAbiType` builds the pair of
a 64-bit and a 128-bit integer for it. -/
theorem classify_register_classes_above_16 :
    getTypeSize (.struct [⟨.integer .Int64, 0⟩, ⟨.integer .Int64, 0⟩, ⟨.integer .Int64, 0⟩]) =
        24 ∧
      hasUnalignedFields
        (.struct [⟨.integer .Int64, 0⟩, ⟨.integer .Int64, 0⟩, ⟨.integer .Int64, 0⟩]) = false ∧
      getStructOffsets [⟨.integer .Int64, 0⟩, ⟨.integer .Int64, 0⟩, ⟨.integer .Int64, 0⟩] =
        [0, 8, 16] ∧
      classify (.struct [⟨.integer .Int64, 0⟩, ⟨.integer .Int64, 0⟩, ⟨.integer .Int64, 0⟩]) =
        ⟨.Integer, .Integer⟩ ∧
      computeAbiType
        (.struct [⟨.integer .Int64, 0⟩, ⟨.integer .Int64, 0⟩, ⟨.integer .Int64, 0⟩]) =
        .ok (some (.struct [.integer 64, .integer 128])) :=
  ⟨by decide, by decide, by decide, by decide, rfl⟩

/-! ## Sequences of fields -/

/-- C16: from the empty classification, after any sequence of `addField` calls the low slot
is `Memory` exactly when the high slot is, and once the classification is `Memory` a
further `addField` changes nothing. -/
theorem addFields_low_memory_iff_and_absorbing (fields : List (Nat × ArgClass)) :
    ((Classification.empty.addFields fields).low = .Memory ↔
        (Classification.empty.addFields fields).high = .Memory) ∧
      ((Classification.empty.addFields fields).isMemory = true →
        ∀ (offset : Nat) (fieldClass : ArgClass),
          (Classification.empty.addFields fields).addField offset fieldClass =
            Classification.empty.addFields fields) := by
  constructor
  · exact foldl_preserves (fun c => c.low = .Memory ↔ c.high = .Memory) _
      (fun c field h => addField_low_memory_iff c field.1 field.2 h) fields
      Classification.empty (by decide)
  · intro hm offset fieldClass
    simp only [Classification.addField, hm, if_true]

/-- C16 at the fields `SSE at 0, X87 at 0, Integer at 8`: the second field turns both slots
to `Memory` and the third is ignored. -/
theorem addFields_low_memory_iff_and_absorbing_witness :
    Classification.empty.addFields [(0, .Sse), (0, .X87)] = ⟨.Memory, .Memory⟩ ∧
      (Classification.empty.addFields [(0, .Sse), (0, .X87)]).addField 8 .Integer =
        Classification.empty.addFields [(0, .Sse), (0, .X87)] :=
  ⟨by decide,
    (addFields_low_memory_iff_and_absorbing [(0, .Sse), (0, .X87)]).2 (by decide) 8 .Integer⟩

/-! ## The extended-precision slots -/

/-- C18, the code at the failing input `Struct{LongDouble, Int8}` (size 32, no unaligned
fields): the `Int8` at offset 16 is merged into the high slot, the classification is
`{X87, Integer}`, and `computeAbiType` stops at the assertion that the upper half of a real
is `X87Up`. -/
theorem computeAbiType_x87_low_without_x87Up_high :
    getTypeSize (.struct [⟨.floatingPoint .LongDouble, 0⟩, ⟨.integer .Int8, 0⟩]) = 32 ∧
      hasUnalignedFields (.struct [⟨.floatingPoint .LongDouble, 0⟩, ⟨.integer .Int8, 0⟩]) =
        false ∧
      getStructOffsets [⟨.floatingPoint .LongDouble, 0⟩, ⟨.integer .Int8, 0⟩] = [0, 16] ∧
      classify (.struct [⟨.floatingPoint .LongDouble, 0⟩, ⟨.integer .Int8, 0⟩]) =
        ⟨.X87, .Integer⟩ ∧
      computeAbiType (.struct [⟨.floatingPoint .LongDouble, 0⟩, ⟨.integer .Int8, 0⟩]) =
        .error .upperHalfOfRealNotX87Up :=
  ⟨by decide, by decide, by decide, by decide, rfl⟩

/-- C19, the code at the failing input `Struct{Struct{}, Int64}` (size 16, no unaligned
fields): the empty struct adds no field, the `Int64` sits at offset 8, the classification is
`{NoClass, Integer}`, and `computeAbiType` stops at the assertion that a struct with an
empty first half is empty. -/
theorem computeAbiType_noClass_low_with_integer_high :
    getTypeSize (.struct [⟨.struct [], 0⟩, ⟨.integer .Int64, 0⟩]) = 16 ∧
      hasUnalignedFields (.struct [⟨.struct [], 0⟩, ⟨.integer .Int64, 0⟩]) = false ∧
      getStructOffsets [⟨.struct [], 0⟩, ⟨.integer .Int64, 0⟩] = [0, 8] ∧
      classify (.struct [⟨.struct [], 0⟩, ⟨.integer .Int64, 0⟩]) = ⟨.NoClass, .Integer⟩ ∧
      computeAbiType (.struct [⟨.struct [], 0⟩, ⟨.integer .Int64, 0⟩]) =
        .error .nonEmptyStructWithEmptyFirstHalf :=
  ⟨by decide, by decide, by decide, by decide, rfl⟩

/-- C20, the code at the failing input `Array[Struct{Int8, LongDouble at explicit offset 4}
x 1]` (size 32): the element alone has unaligned fields and is classified
`{Memory, Memory}`; the array is not a struct, so `hasUnalignedFields` is false for it; the
long double reaches `addField` at offset 4 and shares the low slot with the `Int8`, the
classification is `{Integer, X87Up}`, and the struct that wraps the array takes the `X87Up`
branch that adds a `Double`. -/
theorem classify_integer_low_with_x87Up_high :
    getTypeSize
        (.array (.struct [⟨.integer .Int8, 0⟩, ⟨.floatingPoint .LongDouble, 4⟩]) 1) = 32 ∧
      hasUnalignedFields (.struct [⟨.integer .Int8, 0⟩, ⟨.floatingPoint .LongDouble, 4⟩]) =
        true ∧
      classify (.struct [⟨.integer .Int8, 0⟩, ⟨.floatingPoint .LongDouble, 4⟩]) =
        ⟨.Memory, .Memory⟩ ∧
      classifiedFields []
          (.array (.struct [⟨.integer .Int8, 0⟩, ⟨.floatingPoint .LongDouble, 4⟩]) 1) 0 =
        [(0, .integer .Int8), (4, .floatingPoint .LongDouble)] ∧
      hasUnalignedFields
        (.array (.struct [⟨.integer .Int8, 0⟩, ⟨.floatingPoint .LongDouble, 4⟩]) 1) = false ∧
      classify (.array (.struct [⟨.integer .Int8, 0⟩, ⟨.floatingPoint .LongDouble, 4⟩]) 1) =
        ⟨.Integer, .X87Up⟩ ∧
      hasUnalignedFields
        (.struct [⟨.array (.struct [⟨.integer .Int8, 0⟩, ⟨.floatingPoint .LongDouble, 4⟩]) 1,
          0⟩]) = false ∧
      classify
        (.struct [⟨.array (.struct [⟨.integer .Int8, 0⟩, ⟨.floatingPoint .LongDouble, 4⟩]) 1,
          0⟩]) = ⟨.Integer, .X87Up⟩ ∧
      computeAbiType
        (.struct [⟨.array (.struct [⟨.integer .Int8, 0⟩, ⟨.floatingPoint .LongDouble, 4⟩]) 1,
          0⟩]) = .ok (some (.struct [.integer 64, .double])) :=
  ⟨by decide, by decide, by decide, rfl, by decide, by decide, by decide, by decide, rfl⟩

/-! ## The carve-out -/

/-- C11 fails as stated: `Int` is a 4-byte integer, and the struct of a pointer and an `Int`
is not left alone: it is classified `{Integer, Integer}` and gets the pair of two 64-bit
integers. -/
theorem computeAbiType_pointer_int_transformed :
    getTypeSize (.integer .Int) = 4 ∧
      classify (.struct [⟨.pointer, 0⟩, ⟨.integer .Int, 0⟩]) = ⟨.Integer, .Integer⟩ ∧
      computeAbiType (.struct [⟨.pointer, 0⟩, ⟨.integer .Int, 0⟩]) =
        .ok (some (.struct [.integer 64, .integer 64])) :=
  ⟨by decide, by decide, rfl⟩

/-- C11 (amended): for every struct of exactly two members, a pointer followed by an
integer of kind `Int32`, whatever the explicit offsets, `computeAbiType` returns null. -/
theorem computeAbiType_pointer_int32_null (frontOffset backOffset : Nat) :
    computeAbiType (.struct [⟨.pointer, frontOffset⟩, ⟨.integer .Int32, backOffset⟩]) =
      .ok none :=
  rfl

/-! ## Canonical types of SSE slots -/

theorem classify_struct_nil : classify (.struct []) = Classification.empty := by
  decide

theorem not_eligible_eq_false (type : Ty)
    (he : type.isComplexFloat = true ∨ type.isStruct = true) :
    (!(type.isComplexFloat || type.isStruct)) = false := by
  rcases he with h | h <;> simp [h]

/-- With an `SSE` low slot `computeAbiType` enters the second switch with the low part of
the specification as its only part. -/
theorem computeAbiType_of_sse_low (type : Ty)
    (he : type.isComplexFloat = true ∨ type.isStruct = true)
    (hc : isPointerInt32Struct type = false)
    (hlow : (classify type).low = .Sse) :
    computeAbiType type =
      computeAbiTypeHigh type (classify type) (getTypeSize type) [sseLowPart type] := by
  have hmem : (classify type).isMemory = false := by
    simp [Classification.isMemory, hlow]
  unfold computeAbiType
  simp only [not_eligible_eq_false type he, hc, hmem, hlow]
  unfold sseLowPart
  by_cases h4 : getTypeSize type ≤ 4
  · simp [h4]
  · cases type with
    | struct members =>
        cases members with
        | nil =>
            rw [classify_struct_nil] at hlow
            exact absurd hlow (by decide)
        | cons first rest =>
            by_cases hf : isFloat32 first.type = true
            · simp [h4, firstMemberIsFloat, hf]
            · simp [h4, firstMemberIsFloat, hf]
    | pointer => simp [h4, firstMemberIsFloat]
    | integer k => simp [h4, firstMemberIsFloat]
    | floatingPoint k => simp [h4, firstMemberIsFloat]
    | complex k => simp [h4, firstMemberIsFloat]
    | array e n => simp [h4, firstMemberIsFloat]

/-- With an `Integer` low slot `computeAbiType` enters the second switch with an integer of
`min(size, 8) * 8` bits as its only part. -/
theorem computeAbiType_of_integer_low (type : Ty)
    (he : type.isComplexFloat = true ∨ type.isStruct = true)
    (hc : isPointerInt32Struct type = false)
    (hlow : (classify type).low = .Integer) :
    computeAbiType type =
      computeAbiTypeHigh type (classify type) (getTypeSize type) [integerLowPart type] := by
  have hmem : (classify type).isMemory = false := by
    simp [Classification.isMemory, hlow]
  have hbits : (if getTypeSize type ≥ 8 then 64 else getTypeSize type * 8) =
      min (getTypeSize type) 8 * 8 := by
    split
    · rw [Nat.min_eq_right (by omega)]
    · rw [Nat.min_eq_left (by omega)]
  unfold computeAbiType
  simp only [not_eligible_eq_false type he, hc, hmem, hlow, integerLowPart, hbits]
  simp

/-- C12: for an eligible type whose classification has low slot `SSE`, the low part that
`computeAbiType` chooses is `Float` when the size is at most 4, a 2-lane `Float` vector for
a struct of size above 4 whose first member is a `Float`, and `Double` otherwise; with a
`NoClass` high slot this low part alone is the canonical type. -/
theorem computeAbiType_sse_low_part (type : Ty)
    (he : type.isComplexFloat = true ∨ type.isStruct = true)
    (hc : isPointerInt32Struct type = false)
    (hlow : (classify type).low = .Sse) :
    computeAbiType type =
        computeAbiTypeHigh type (classify type) (getTypeSize type) [sseLowPart type] ∧
      ((classify type).high = .NoClass → computeAbiType type = .ok (some (sseLowPart type))) ∧
      (getTypeSize type ≤ 4 → sseLowPart type = .float) ∧
      (4 < getTypeSize type → firstMemberIsFloat type = true →
        sseLowPart type = .vector .float 2) ∧
      (4 < getTypeSize type → firstMemberIsFloat type = false → sseLowPart type = .double) := by
  have hEq := computeAbiType_of_sse_low type he hc hlow
  refine ⟨hEq, ?_, ?_, ?_, ?_⟩
  · intro hh
    rw [hEq]
    simp [computeAbiTypeHigh, hh]
  · intro h4
    simp [sseLowPart, h4]
  · intro h4 hf
    have : ¬ getTypeSize type ≤ 4 := by omega
    simp [sseLowPart, this, hf]
  · intro h4 hf
    have : ¬ getTypeSize type ≤ 4 := by omega
    simp [sseLowPart, this, hf]

/-- C12 at `Struct{Float, Float}`: classified `{SSE, NoClass}`, canonical type the 2-lane
`Float` vector. -/
theorem computeAbiType_sse_low_part_witness :
    classify (.struct [⟨.floatingPoint .Float, 0⟩, ⟨.floatingPoint .Float, 0⟩]) =
        ⟨.Sse, .NoClass⟩ ∧
      sseLowPart (.struct [⟨.floatingPoint .Float, 0⟩, ⟨.floatingPoint .Float, 0⟩]) =
        .vector .float 2 ∧
      computeAbiType (.struct [⟨.floatingPoint .Float, 0⟩, ⟨.floatingPoint .Float, 0⟩]) =
        .ok (some (.vector .float 2)) :=
  ⟨by decide,
    (computeAbiType_sse_low_part
      (.struct [⟨.floatingPoint .Float, 0⟩, ⟨.floatingPoint .Float, 0⟩])
      (Or.inr rfl) rfl (by decide)).2.2.2.1 (by decide) rfl,
    (computeAbiType_sse_low_part
      (.struct [⟨.floatingPoint .Float, 0⟩, ⟨.floatingPoint .Float, 0⟩])
      (Or.inr rfl) rfl (by decide)).2.1 (by decide)⟩

theorem skipMembersBelow8_succ (memberOffsets : List Nat) :
    ∀ memberIndex : Nat, skipMembersBelow8 memberOffsets (memberIndex + 1) =
      skipMembersBelow8 memberOffsets memberIndex + 1 := by
  induction memberOffsets with
  | nil => intro memberIndex; simp [skipMembersBelow8]
  | cons memberOffset rest ih =>
      intro memberIndex
      simp only [skipMembersBelow8]
      split
      · exact ih _
      · rfl

theorem skipMembersBelow8_le_length (memberOffsets : List Nat) :
    skipMembersBelow8 memberOffsets 0 ≤ memberOffsets.length := by
  induction memberOffsets with
  | nil => simp [skipMembersBelow8]
  | cons memberOffset rest ih =>
      simp only [skipMembersBelow8, List.length_cons]
      split
      · rw [skipMembersBelow8_succ]; omega
      · omega

/-- The member at the index where the loop stops is the first member paired with an offset
of at least 8. -/
theorem getElem?_skipMembersBelow8 (members : Members) :
    ∀ memberOffsets : List Nat, memberOffsets.length = members.length →
      members[skipMembersBelow8 memberOffsets 0]? =
        ((members.zip memberOffsets).find? (fun entry => decide (8 ≤ entry.2))).map
          Prod.fst := by
  induction members with
  | nil => intro memberOffsets _; simp
  | cons member rest ih =>
      intro memberOffsets hlen
      cases memberOffsets with
      | nil => simp at hlen
      | cons memberOffset restOffsets =>
          simp only [List.length_cons, Nat.add_right_cancel_iff] at hlen
          simp only [skipMembersBelow8, List.zip_cons_cons, List.find?_cons]
          by_cases h8 : memberOffset < 8
          · have hn : ¬ 8 ≤ memberOffset := by omega
            simp only [h8, if_true, hn, decide_False, skipMembersBelow8_succ,
              List.getElem?_cons_succ]
            exact ih restOffsets hlen
          · have hn : 8 ≤ memberOffset := by omega
            simp [h8, hn]

/-- With an `SSE` high slot the second switch adds the high part of the specification. -/
theorem computeAbiTypeHigh_of_sse_high (type : Ty) (classification : Classification)
    (parts : List LlvmType) (hh : classification.high = .Sse) :
    computeAbiTypeHigh type classification (getTypeSize type) parts =
      .ok (some (.struct (parts ++ [sseHighPart type]))) := by
  unfold computeAbiTypeHigh sseHighPart
  simp only [hh]
  by_cases h12 : getTypeSize type ≤ 12
  · simp [h12]
  · cases type with
    | struct members =>
        have hlen : (getStructOffsets members).length = members.length :=
          getStructOffsetsLoop_length members 0
        have hget := getElem?_skipMembersBelow8 members (getStructOffsets members) hlen
        have hle := skipMembersBelow8_le_length (getStructOffsets members)
        simp only [h12, if_false, firstMemberFrom8]
        rw [← hget]
        cases hm : members[skipMembersBelow8 (getStructOffsets members) 0]? with
        | none =>
            have hge := List.getElem?_eq_none_iff.mp hm
            have hidx : skipMembersBelow8 (getStructOffsets members) 0 = members.length := by
              omega
            simp [hidx]
        | some member =>
            have hlt := (List.getElem?_eq_some.mp hm).1
            have hidx : skipMembersBelow8 (getStructOffsets members) 0 ≠ members.length := by
              omega
            by_cases hf : isFloat32 member.type = true
            · simp [hidx, hf]
            · simp [hidx, hf]
    | pointer => simp [h12]
    | integer k => simp [h12]
    | floatingPoint k => simp [h12]
    | complex k => simp [h12]
    | array e n => simp [h12]

/-- C13: for an eligible type whose classification has low slot `Integer` or `SSE` and high
slot `SSE`, the canonical type is the pair of the low part and the high part, where the high
part is `Float` when the size is at most 12, otherwise for a struct a 2-lane `Float` vector
when the first member at resolved offset 8 or more exists and is a `Float` and `Double`
when it is not, and `Double` for a non-struct. -/
theorem computeAbiType_sse_high_part (type : Ty)
    (he : type.isComplexFloat = true ∨ type.isStruct = true)
    (hc : isPointerInt32Struct type = false)
    (hlow : (classify type).low = .Integer ∨ (classify type).low = .Sse)
    (hhigh : (classify type).high = .Sse) :
    computeAbiType type = .ok (some (.struct [lowPart type, sseHighPart type])) := by
  rcases hlow with hlow | hlow
  · rw [computeAbiType_of_integer_low type he hc hlow,
      computeAbiTypeHigh_of_sse_high type _ _ hhigh]
    simp [lowPart, hlow]
  · rw [computeAbiType_of_sse_low type he hc hlow,
      computeAbiTypeHigh_of_sse_high type _ _ hhigh]
    simp [lowPart, hlow]

/-- C13 at `Struct{Double, Double}`: classified `{SSE, SSE}`, canonical type the pair
`(Double, Double)`; and at `Struct{Int64, Float, Float}`: the pair of a 64-bit integer and
the 2-lane `Float` vector. -/
theorem computeAbiType_sse_high_part_witness :
    classify (.struct [⟨.floatingPoint .Double, 0⟩, ⟨.floatingPoint .Double, 0⟩]) =
        ⟨.Sse, .Sse⟩ ∧
      computeAbiType (.struct [⟨.floatingPoint .Double, 0⟩, ⟨.floatingPoint .Double, 0⟩]) =
        .ok (some (.struct [.double, .double])) ∧
      computeAbiType
          (.struct [⟨.integer .Int64, 0⟩, ⟨.floatingPoint .Float, 0⟩,
            ⟨.floatingPoint .Float, 0⟩]) =
        .ok (some (.struct [.integer 64, .vector .float 2])) :=
  ⟨by decide,
    computeAbiType_sse_high_part
      (.struct [⟨.floatingPoint .Double, 0⟩, ⟨.floatingPoint .Double, 0⟩])
      (Or.inr rfl) rfl (Or.inr (by decide)) (by decide),
    computeAbiType_sse_high_part
      (.struct [⟨.integer .Int64, 0⟩, ⟨.floatingPoint .Float, 0⟩, ⟨.floatingPoint .Float, 0⟩])
      (Or.inr rfl) rfl (Or.inl (by decide)) (by decide)⟩

/-! ## Query cache -/

theorem Cache.insert_addedAt_of_none {V : Type} (cache : Cache V) (key : TypeId) (value : V)
    (h : cache key = none) : Cache.AddedAt cache (cache.insert key value) key value := by
  refine ⟨?_, ?_, Or.inl h⟩
  · intro k hk
    simp [Cache.insert, hk]
  · simp [Cache.insert, h]

theorem Cache.addedAt_of_some {V : Type} (cache : Cache V) (key : TypeId) (value : V)
    (h : cache key = some value) : Cache.AddedAt cache cache key value :=
  ⟨fun _ _ => rfl, h, Or.inr h⟩

theorem Caches.empty_coherent (deref : TypeId → Ty) : Caches.empty.Coherent deref := by
  refine ⟨?_, ?_, ?_⟩ <;> intro type value h <;> simp [Caches.empty] at h

/-- What `typeSize` does on coherent caches. -/
theorem typeSize_of_coherent (deref : TypeId → Ty) (caches : Caches) (type : TypeId)
    (h : caches.Coherent deref) :
    (typeSize deref caches type).1 = getTypeSize (deref type) ∧
      (typeSize deref caches type).2.Coherent deref ∧
      Cache.AddedAt caches.sizeOfCache_ (typeSize deref caches type).2.sizeOfCache_ type
        (getTypeSize (deref type)) ∧
      (typeSize deref caches type).2.alignOfCache_ = caches.alignOfCache_ ∧
      (typeSize deref caches type).2.abiTypeCache_ = caches.abiTypeCache_ := by
  obtain ⟨h1, h2, h3⟩ := h
  unfold typeSize
  cases hc : caches.sizeOfCache_ type with
  | some cached =>
      have hv := h1 type cached hc
      subst hv
      exact ⟨rfl, ⟨h1, h2, h3⟩, Cache.addedAt_of_some _ _ _ hc, rfl, rfl⟩
  | none =>
      refine ⟨rfl, ⟨?_, h2, h3⟩, Cache.insert_addedAt_of_none _ _ _ hc, rfl, rfl⟩
      intro k v hk
      by_cases hkt : k = type
      · subst hkt
        simp [Cache.insert, hc] at hk
        exact hk.symm
      · simp [Cache.insert, hkt] at hk
        exact h1 k v hk

/-- What `typeAlign` does on coherent caches. -/
theorem typeAlign_of_coherent (deref : TypeId → Ty) (caches : Caches) (type : TypeId)
    (h : caches.Coherent deref) :
    (typeAlign deref caches type).1 = getTypeAlign (deref type) ∧
      (typeAlign deref caches type).2.Coherent deref ∧
      Cache.AddedAt caches.alignOfCache_ (typeAlign deref caches type).2.alignOfCache_ type
        (getTypeAlign (deref type)) ∧
      (typeAlign deref caches type).2.sizeOfCache_ = caches.sizeOfCache_ ∧
      (typeAlign deref caches type).2.abiTypeCache_ = caches.abiTypeCache_ := by
  obtain ⟨h1, h2, h3⟩ := h
  unfold typeAlign
  cases hc : caches.alignOfCache_ type with
  | some cached =>
      have hv := h2 type cached hc
      subst hv
      exact ⟨rfl, ⟨h1, h2, h3⟩, Cache.addedAt_of_some _ _ _ hc, rfl, rfl⟩
  | none =>
      refine ⟨rfl, ⟨h1, ?_, h3⟩, Cache.insert_addedAt_of_none _ _ _ hc, rfl, rfl⟩
      intro k v hk
      by_cases hkt : k = type
      · subst hkt
        simp [Cache.insert, hc] at hk
        exact hk.symm
      · simp [Cache.insert, hkt] at hk
        exact h2 k v hk

/-- What `abiType` does on coherent caches when `computeAbiType` returns. -/
theorem abiType_of_coherent_ok (deref : TypeId → Ty) (caches : Caches) (type : TypeId)
    (h : caches.Coherent deref) (result : Option LlvmType)
    (hr : computeAbiType (deref type) = .ok result) :
    ∃ caches1 : Caches, abiType deref caches type = .ok (result, caches1) ∧
      caches1.Coherent deref ∧
      Cache.AddedAt caches.abiTypeCache_ caches1.abiTypeCache_ type result ∧
      caches1.sizeOfCache_ = caches.sizeOfCache_ ∧
      caches1.alignOfCache_ = caches.alignOfCache_ := by
  obtain ⟨h1, h2, h3⟩ := h
  unfold abiType
  cases hc : caches.abiTypeCache_ type with
  | some cached =>
      have hv := h3 type cached hc
      rw [hr] at hv
      have hv : result = cached := by injection hv
      subst hv
      exact ⟨caches, rfl, ⟨h1, h2, h3⟩, Cache.addedAt_of_some _ _ _ hc, rfl, rfl⟩
  | none =>
      simp only [hr]
      refine ⟨_, rfl, ⟨h1, h2, ?_⟩, Cache.insert_addedAt_of_none _ _ _ hc, rfl, rfl⟩
      intro k v hk
      by_cases hkt : k = type
      · subst hkt
        simp [Cache.insert, hc] at hk
        rw [hr, hk]
      · simp [Cache.insert, hkt] at hk
        exact h3 k v hk

/-- On coherent caches `abiType` stops exactly where `computeAbiType` does. -/
theorem abiType_of_coherent_error (deref : TypeId → Ty) (caches : Caches) (type : TypeId)
    (h : caches.Coherent deref) (fatal : Fatal)
    (hr : computeAbiType (deref type) = .error fatal) :
    abiType deref caches type = .error fatal := by
  obtain ⟨_, _, h3⟩ := h
  unfold abiType
  cases hc : caches.abiTypeCache_ type with
  | some cached =>
      have hv := h3 type cached hc
      rw [hr] at hv
      exact absurd hv (by simp)
  | none => simp only [hr]

theorem CacheCall.run_coherent (deref : TypeId → Ty) (caches caches1 : Caches)
    (call : CacheCall) (h : caches.Coherent deref)
    (hrun : call.run deref caches = .ok caches1) : caches1.Coherent deref := by
  cases call with
  | typeSize type =>
      simp only [CacheCall.run, Except.ok.injEq] at hrun
      rw [← hrun]
      exact (typeSize_of_coherent deref caches type h).2.1
  | typeAlign type =>
      simp only [CacheCall.run, Except.ok.injEq] at hrun
      rw [← hrun]
      exact (typeAlign_of_coherent deref caches type h).2.1
  | abiType type =>
      simp only [CacheCall.run] at hrun
      cases hr : computeAbiType (deref type) with
      | error fatal =>
          rw [abiType_of_coherent_error deref caches type h fatal hr] at hrun
          simp at hrun
      | ok result =>
          obtain ⟨c1, hc1, hcoh, _⟩ := abiType_of_coherent_ok deref caches type h result hr
          rw [hc1] at hrun
          simp only [Except.ok.injEq] at hrun
          rw [← hrun]
          exact hcoh

theorem runCalls_coherent (deref : TypeId → Ty) (calls : List CacheCall) :
    ∀ caches caches1 : Caches, caches.Coherent deref →
      runCalls deref calls caches = .ok caches1 → caches1.Coherent deref := by
  induction calls with
  | nil =>
      intro caches caches1 h hrun
      simp only [runCalls, Except.ok.injEq] at hrun
      rw [← hrun]
      exact h
  | cons call rest ih =>
      intro caches caches1 h hrun
      simp only [runCalls] at hrun
      cases hc : call.run deref caches with
      | error fatal => rw [hc] at hrun; simp at hrun
      | ok caches2 =>
          rw [hc] at hrun
          exact ih caches2 caches1 (CacheCall.run_coherent deref caches caches2 call h hc) hrun

/-- C15: in every cache state reached from the empty caches by a sequence of `typeSize`,
`typeAlign` and `abiType` calls, every cached entry is what the uncached function computes;
so each query returns what the uncached function computes, on the hit and on the miss path,
and changes the caches only by adding the entry for its own argument. -/
theorem caches_reachable_coherent (deref : TypeId → Ty) (calls : List CacheCall)
    (caches : Caches) (h : runCalls deref calls Caches.empty = .ok caches) :
    caches.Coherent deref ∧
      ∀ type : TypeId,
        ((typeSize deref caches type).1 = getTypeSize (deref type) ∧
          Cache.AddedAt caches.sizeOfCache_ (typeSize deref caches type).2.sizeOfCache_ type
            (getTypeSize (deref type)) ∧
          (typeSize deref caches type).2.alignOfCache_ = caches.alignOfCache_ ∧
          (typeSize deref caches type).2.abiTypeCache_ = caches.abiTypeCache_) ∧
        ((typeAlign deref caches type).1 = getTypeAlign (deref type) ∧
          Cache.AddedAt caches.alignOfCache_ (typeAlign deref caches type).2.alignOfCache_
            type (getTypeAlign (deref type)) ∧
          (typeAlign deref caches type).2.sizeOfCache_ = caches.sizeOfCache_ ∧
          (typeAlign deref caches type).2.abiTypeCache_ = caches.abiTypeCache_) ∧
        ((∀ fatal, computeAbiType (deref type) = .error fatal →
            abiType deref caches type = .error fatal) ∧
          ∀ result, computeAbiType (deref type) = .ok result →
            ∃ caches1 : Caches, abiType deref caches type = .ok (result, caches1) ∧
              Cache.AddedAt caches.abiTypeCache_ caches1.abiTypeCache_ type result ∧
              caches1.sizeOfCache_ = caches.sizeOfCache_ ∧
              caches1.alignOfCache_ = caches.alignOfCache_) := by
  have hcoh := runCalls_coherent deref calls Caches.empty caches
    (Caches.empty_coherent deref) h
  refine ⟨hcoh, fun type => ⟨?_, ?_, ?_, ?_⟩⟩
  · obtain ⟨a, _, b, c, d⟩ := typeSize_of_coherent deref caches type hcoh
    exact ⟨a, b, c, d⟩
  · obtain ⟨a, _, b, c, d⟩ := typeAlign_of_coherent deref caches type hcoh
    exact ⟨a, b, c, d⟩
  · exact fun fatal hr => abiType_of_coherent_error deref caches type hcoh fatal hr
  · intro result hr
    obtain ⟨c1, a, _, b, c, d⟩ := abiType_of_coherent_ok deref caches type hcoh result hr
    exact ⟨c1, a, b, c, d⟩

/-- C15 after the call `typeSize(7)` on a 4-byte integer: the second call hits the cache and
returns 4. -/
theorem caches_reachable_coherent_witness :
    runCalls (fun _ => Ty.integer .Int32) [.typeSize 7] Caches.empty =
        .ok (typeSize (fun _ => Ty.integer .Int32) Caches.empty 7).2 ∧
      (typeSize (fun _ => Ty.integer .Int32) Caches.empty 7).2.sizeOfCache_ 7 = some 4 ∧
      (typeSize (fun _ => Ty.integer .Int32)
        (typeSize (fun _ => Ty.integer .Int32) Caches.empty 7).2 7).1 = 4 :=
  ⟨rfl, rfl,
    ((caches_reachable_coherent (fun _ => Ty.integer .Int32) [.typeSize 7]
      (typeSize (fun _ => Ty.integer .Int32) Caches.empty 7).2 rfl).2 7).1.1⟩

/-! ## The fields that reach `addField` -/

theorem foldl_rel {α β γ : Type} (R : α → β → Prop) (f : α → γ → α) (g : β → γ → β)
    (h : ∀ a b x, R a b → R (f a x) (g b x)) :
    ∀ (l : List γ) (a : α) (b : β), R a b → R (l.foldl f a) (l.foldl g b) := by
  intro l
  induction l with
  | nil => intro a b hab; exact hab
  | cons x rest ih => intro a b hab; exact ih _ _ (h a b x hab)

mutual
/-- The list `classifiedFields` is the list of fields that `classifyType` classifies:
classifying the listed fields one after the other is `classifyType`. -/
theorem foldl_classifyField_classifiedFields :
    ∀ (type : Ty) (fields : List (Nat × Ty)) (offset : Nat) (c : Classification),
      (classifiedFields fields type offset).foldl classifyField c =
        classifyType (fields.foldl classifyField c) type offset
  | .pointer, fields, offset, c => by
      simp only [classifiedFields, List.foldl_append, List.foldl_cons, List.foldl_nil,
        classifyField]
  | .integer k, fields, offset, c => by
      simp only [classifiedFields, List.foldl_append, List.foldl_cons, List.foldl_nil,
        classifyField]
  | .floatingPoint k, fields, offset, c => by
      simp only [classifiedFields, List.foldl_append, List.foldl_cons, List.foldl_nil,
        classifyField]
  | .complex k, fields, offset, c => by
      simp only [classifiedFields, List.foldl_append, List.foldl_cons, List.foldl_nil,
        classifyField]
  | .array elementType elementCount, fields, offset, c => by
      simp only [classifiedFields, classifyType]
      exact foldl_rel (fun acc cl => acc.foldl classifyField c = cl)
        (fun acc i =>
          classifiedFields acc elementType (offset + i * getTypeSize elementType))
        (fun acc i => classifyType acc elementType (offset + i * getTypeSize elementType))
        (fun a b x hab => by
          have hab1 : a.foldl classifyField c = b := hab
          show (classifiedFields a elementType _).foldl classifyField c = _
          rw [foldl_classifyField_classifiedFields elementType a _ c, hab1])
        (List.range elementCount) fields _ rfl
  | .struct members, fields, offset, c => by
      simp only [classifiedFields, classifyType]
      exact foldl_classifyField_classifiedFieldsLoop members fields offset 0 c
theorem foldl_classifyField_classifiedFieldsLoop :
    ∀ (members : List (StructMember Ty)) (fields : List (Nat × Ty))
      (offset structOffset : Nat) (c : Classification),
      (classifiedFieldsLoop fields members offset structOffset).foldl classifyField c =
        classifyTypeLoop (fields.foldl classifyField c) members offset structOffset
  | [], fields, offset, structOffset, c => by
      simp only [classifiedFieldsLoop, classifyTypeLoop]
  | member :: rest, fields, offset, structOffset, c => by
      simp only [classifiedFieldsLoop, classifyTypeLoop]
      rw [foldl_classifyField_classifiedFieldsLoop rest _ offset _ c,
        foldl_classifyField_classifiedFields member.type fields _ c]
end

/-- C21, the code at the failing input `Array[Struct{Int32 at explicit offset 6} x 1]`
(size 12): the array is not a struct, so `hasUnalignedFields` is false for it although it is
true for its element; `classify` goes on to `classifyType`, which passes the `Int32` to
`addField` at offset 6, not a multiple of its alignment 4; the field covers bytes 6 to 9
across the eightbyte boundary and only the low slot is classified. -/
theorem classifyType_unaligned_field_in_array :
    getTypeSize (.array (.struct [⟨.integer .Int32, 6⟩]) 1) = 12 ∧
      hasUnalignedFields (.array (.struct [⟨.integer .Int32, 6⟩]) 1) = false ∧
      hasUnalignedFields (.struct [⟨.integer .Int32, 6⟩]) = true ∧
      classifiedFields [] (.array (.struct [⟨.integer .Int32, 6⟩]) 1) 0 =
        [(6, .integer .Int32)] ∧
      isOneSlotField (.integer .Int32) = true ∧
      getTypeAlign (.integer .Int32) = 4 ∧
      ¬ (getTypeAlign (.integer .Int32) ∣ 6) ∧
      6 < 8 ∧ 8 < 6 + getTypeSize (.integer .Int32) ∧
      classify (.array (.struct [⟨.integer .Int32, 6⟩]) 1) = ⟨.Integer, .NoClass⟩ :=
  ⟨by decide, by decide, by decide, rfl, rfl, by decide, by decide, by decide, by decide,
    by decide⟩

/-! ## The size of the canonical type -/

/-- C23, the code at the failing input `Struct{Double, Double, Double}` (size 24, no
unaligned fields): the third `Double`, at offset 16, is merged into the high slot, the
classification is `{SSE, SSE}` and the canonical type is the pair `(Double, Double)` of 16
bytes, 8 bytes short of the 24 bytes that `encodeValues` copies into its slot. -/
theorem computeAbiType_smaller_than_type :
    getTypeSize
        (.struct [⟨.floatingPoint .Double, 0⟩, ⟨.floatingPoint .Double, 0⟩,
          ⟨.floatingPoint .Double, 0⟩]) = 24 ∧
      hasUnalignedFields
        (.struct [⟨.floatingPoint .Double, 0⟩, ⟨.floatingPoint .Double, 0⟩,
          ⟨.floatingPoint .Double, 0⟩]) = false ∧
      classify
        (.struct [⟨.floatingPoint .Double, 0⟩, ⟨.floatingPoint .Double, 0⟩,
          ⟨.floatingPoint .Double, 0⟩]) = ⟨.Sse, .Sse⟩ ∧
      computeAbiType
        (.struct [⟨.floatingPoint .Double, 0⟩, ⟨.floatingPoint .Double, 0⟩,
          ⟨.floatingPoint .Double, 0⟩]) = .ok (some (.struct [.double, .double])) ∧
      llvmTypeByteSize (.struct [.double, .double]) = 16 ∧
      llvmTypeByteSize (.struct [.double, .double]) <
        getTypeSize
          (.struct [⟨.floatingPoint .Double, 0⟩, ⟨.floatingPoint .Double, 0⟩,
            ⟨.floatingPoint .Double, 0⟩]) :=
  ⟨by decide, by decide, by decide, rfl, by decide, by decide⟩

/-! ## An explicit offset equal to the natural one -/

theorem resolvedOffset_zero_offset (member : StructMember Ty) (cursor : Nat) :
    resolvedOffset { member with offset := 0 } cursor =
      roundUpToAlign cursor (getTypeAlign member.type) := by
  unfold resolvedOffset
  rcases Nat.eq_zero_or_pos cursor with h | h
  · subst h
    simp [roundUpToAlign_zero _ (getTypeAlign_isAbiAlign member.type)]
  · simp [h]

theorem resolvedOffset_of_zero_or_natural (member : StructMember Ty) (cursor : Nat)
    (h : member.offset = 0 ∨
      member.offset = roundUpToAlign cursor (getTypeAlign member.type)) :
    resolvedOffset member cursor = roundUpToAlign cursor (getTypeAlign member.type) := by
  unfold resolvedOffset
  split
  · rfl
  · rcases h with h | h
    · have hc : cursor = 0 := by omega
      subst hc
      rw [h, roundUpToAlign_zero _ (getTypeAlign_isAbiAlign member.type)]
    · exact h

theorem getTypeSizeLoop_cons (member : StructMember Ty) (rest : Members) (cursor : Nat) :
    getTypeSizeLoop (member :: rest) cursor =
      getTypeSizeLoop rest (resolvedOffset member cursor + getTypeSize member.type) := by
  simp only [getTypeSizeLoop, resolvedOffset]

theorem classifyTypeLoop_cons (c : Classification) (member : StructMember Ty)
    (rest : Members) (offset structOffset : Nat) :
    classifyTypeLoop c (member :: rest) offset structOffset =
      classifyTypeLoop (classifyType c member.type (offset + resolvedOffset member structOffset))
        rest offset (resolvedOffset member structOffset + getTypeSize member.type) := by
  simp only [classifyTypeLoop, resolvedOffset]

/-- The hypothesis of C22 at the head of the list: the head has the natural offset. -/
theorem natural_offset_head (first : StructMember Ty) (rest : Members) (cursor : Nat)
    (member : StructMember Ty) (hm : (first :: rest)[0]? = some member)
    (ho : member.offset =
      (getStructOffsetsLoop (clearExplicitOffset (first :: rest) 0) cursor []).getD 0 0) :
    first.offset = roundUpToAlign cursor (getTypeAlign first.type) ∧
      resolvedOffset first cursor = resolvedOffset { first with offset := 0 } cursor := by
  simp only [List.getElem?_cons_zero, Option.some.injEq] at hm
  subst hm
  simp only [clearExplicitOffset, getStructOffsetsLoop_cons, List.getD_cons_zero,
    resolvedOffset_zero_offset] at ho
  refine ⟨ho, ?_⟩
  rw [resolvedOffset_zero_offset, resolvedOffset_of_zero_or_natural first cursor (Or.inr ho)]

/-- The hypothesis of C22 past the head of the list: it holds for the tail, from the cursor
after the head. -/
theorem natural_offset_tail (first : StructMember Ty) (rest : Members) (cursor j : Nat)
    (member : StructMember Ty) (hm : (first :: rest)[j + 1]? = some member)
    (ho : member.offset =
      (getStructOffsetsLoop (clearExplicitOffset (first :: rest) (j + 1)) cursor []).getD
        (j + 1) 0) :
    rest[j]? = some member ∧
      member.offset =
        (getStructOffsetsLoop (clearExplicitOffset rest j)
          (resolvedOffset first cursor + getTypeSize first.type) []).getD j 0 := by
  simp only [List.getElem?_cons_succ] at hm
  simp only [clearExplicitOffset, getStructOffsetsLoop_cons, List.getD_cons_succ] at ho
  exact ⟨hm, ho⟩

theorem getStructOffsetsLoop_clearExplicitOffset (members : Members) :
    ∀ (cursor i : Nat) (member : StructMember Ty), members[i]? = some member →
      member.offset = (getStructOffsetsLoop (clearExplicitOffset members i) cursor []).getD i 0 →
      getStructOffsetsLoop (clearExplicitOffset members i) cursor [] =
        getStructOffsetsLoop members cursor [] := by
  induction members with
  | nil => intro cursor i member hm; simp at hm
  | cons first rest ih =>
      intro cursor i member hm ho
      cases i with
      | zero =>
          obtain ⟨_, hr⟩ := natural_offset_head first rest cursor member hm ho
          simp only [clearExplicitOffset, getStructOffsetsLoop_cons, ← hr]
      | succ j =>
          obtain ⟨hm1, ho1⟩ := natural_offset_tail first rest cursor j member hm ho
          simp only [clearExplicitOffset, getStructOffsetsLoop_cons]
          rw [ih _ j member hm1 ho1]

theorem getTypeSizeLoop_clearExplicitOffset (members : Members) :
    ∀ (cursor i : Nat) (member : StructMember Ty), members[i]? = some member →
      member.offset = (getStructOffsetsLoop (clearExplicitOffset members i) cursor []).getD i 0 →
      getTypeSizeLoop (clearExplicitOffset members i) cursor =
        getTypeSizeLoop members cursor := by
  induction members with
  | nil => intro cursor i member hm; simp at hm
  | cons first rest ih =>
      intro cursor i member hm ho
      cases i with
      | zero =>
          obtain ⟨_, hr⟩ := natural_offset_head first rest cursor member hm ho
          simp only [clearExplicitOffset, getTypeSizeLoop_cons, ← hr]
      | succ j =>
          obtain ⟨hm1, ho1⟩ := natural_offset_tail first rest cursor j member hm ho
          simp only [clearExplicitOffset, getTypeSizeLoop_cons]
          exact ih _ j member hm1 ho1

theorem getTypeAlignLoop_clearExplicitOffset (members : Members) :
    ∀ (mostStrictAlign i : Nat),
      getTypeAlignLoop (clearExplicitOffset members i) mostStrictAlign =
        getTypeAlignLoop members mostStrictAlign := by
  induction members with
  | nil => intro a i; simp only [clearExplicitOffset]
  | cons first rest ih =>
      intro a i
      cases i with
      | zero => simp only [clearExplicitOffset, getTypeAlignLoop]
      | succ j =>
          simp only [clearExplicitOffset, getTypeAlignLoop]
          exact ih _ j

theorem classifyTypeLoop_clearExplicitOffset (members : Members) :
    ∀ (c : Classification) (offset cursor i : Nat) (member : StructMember Ty),
      members[i]? = some member →
      member.offset = (getStructOffsetsLoop (clearExplicitOffset members i) cursor []).getD i 0 →
      classifyTypeLoop c (clearExplicitOffset members i) offset cursor =
        classifyTypeLoop c members offset cursor := by
  induction members with
  | nil => intro c offset cursor i member hm; simp at hm
  | cons first rest ih =>
      intro c offset cursor i member hm ho
      cases i with
      | zero =>
          obtain ⟨_, hr⟩ := natural_offset_head first rest cursor member hm ho
          simp only [clearExplicitOffset, classifyTypeLoop_cons, ← hr]
      | succ j =>
          obtain ⟨hm1, ho1⟩ := natural_offset_tail first rest cursor j member hm ho
          simp only [clearExplicitOffset, classifyTypeLoop_cons]
          exact ih _ offset _ j member hm1 ho1

theorem hasUnalignedFieldsLoop_clearExplicitOffset (members : Members) :
    ∀ (cursor i : Nat) (member : StructMember Ty), members[i]? = some member →
      member.offset = (getStructOffsetsLoop (clearExplicitOffset members i) cursor []).getD i 0 →
      hasUnalignedFieldsLoop (clearExplicitOffset members i) cursor =
        hasUnalignedFieldsLoop members cursor := by
  induction members with
  | nil => intro cursor i member hm; simp at hm
  | cons first rest ih =>
      intro cursor i member hm ho
      cases i with
      | zero =>
          obtain ⟨hnat, _⟩ := natural_offset_head first rest cursor member hm ho
          simp only [clearExplicitOffset, hasUnalignedFieldsLoop]
          by_cases h0 : first.offset = 0
          · simp [h0]
          · simp [h0, ← hnat]
      | succ j =>
          obtain ⟨hm1, ho1⟩ := natural_offset_tail first rest cursor j member hm ho
          simp only [clearExplicitOffset]
          cases hf : hasUnalignedFieldsLoop (first :: rest) cursor with
          | false =>
              obtain ⟨h1, h2, h3⟩ :=
                (hasUnalignedFieldsLoop_cons_eq_false first rest cursor).mp hf
              rw [resolvedOffset_of_zero_or_natural first cursor h1] at ho1
              rw [hasUnalignedFieldsLoop_cons_eq_false]
              exact ⟨h1, h2, by rw [ih _ j member hm1 ho1]; exact h3⟩
          | true =>
              by_contra hne
              have hfalse : hasUnalignedFieldsLoop (first :: clearExplicitOffset rest j)
                  cursor = false := by simpa using hne
              obtain ⟨h1, h2, h3⟩ :=
                (hasUnalignedFieldsLoop_cons_eq_false first _ cursor).mp hfalse
              rw [resolvedOffset_of_zero_or_natural first cursor h1] at ho1
              rw [ih _ j member hm1 ho1] at h3
              have : hasUnalignedFieldsLoop (first :: rest) cursor = false :=
                (hasUnalignedFieldsLoop_cons_eq_false first rest cursor).mpr ⟨h1, h2, h3⟩
              rw [hf] at this
              exact absurd this (by decide)

theorem isEmpty_clearExplicitOffset (members : Members) (i : Nat) :
    (clearExplicitOffset members i).isEmpty = members.isEmpty := by
  cases members with
  | nil => rfl
  | cons first rest => cases i <;> rfl

/-- C22: if the explicit offset of member `i` equals the offset the member is given with no
explicit offset after the same preceding members, then replacing it by 0 changes none of
`getStructOffsets`, `getTypeSize`, `getTypeAlign`, `hasUnalignedFields` and `classify` of the
struct. -/
theorem clearExplicitOffset_of_natural_offset (members : Members) (i : Nat)
    (member : StructMember Ty) (hm : members[i]? = some member)
    (ho : member.offset = (getStructOffsets (clearExplicitOffset members i)).getD i 0) :
    getStructOffsets (clearExplicitOffset members i) = getStructOffsets members ∧
      getTypeSize (.struct (clearExplicitOffset members i)) = getTypeSize (.struct members) ∧
      getTypeAlign (.struct (clearExplicitOffset members i)) =
        getTypeAlign (.struct members) ∧
      hasUnalignedFields (.struct (clearExplicitOffset members i)) =
        hasUnalignedFields (.struct members) ∧
      classify (.struct (clearExplicitOffset members i)) = classify (.struct members) := by
  have hOffsets := getStructOffsetsLoop_clearExplicitOffset members 0 i member hm ho
  have hSizeLoop := getTypeSizeLoop_clearExplicitOffset members 0 i member hm ho
  have hAlignLoop := getTypeAlignLoop_clearExplicitOffset members 1 i
  have hUnaligned := hasUnalignedFieldsLoop_clearExplicitOffset members 0 i member hm ho
  have hSize : getTypeSize (.struct (clearExplicitOffset members i)) =
      getTypeSize (.struct members) := by
    simp only [getTypeSize, hSizeLoop, hAlignLoop, isEmpty_clearExplicitOffset]
  have hUn : hasUnalignedFields (.struct (clearExplicitOffset members i)) =
      hasUnalignedFields (.struct members) := by
    simp only [hasUnalignedFields, hUnaligned]
  refine ⟨hOffsets, hSize, ?_, hUn, ?_⟩
  · simp only [getTypeAlign, hAlignLoop]
  · unfold classify
    rw [hSize, hUn]
    simp only [classifyType]
    rw [classifyTypeLoop_clearExplicitOffset members _ 0 0 i member hm ho]

/-- C22 at `Struct{Int8, Int32 at explicit offset 4}`, where 4 is the natural offset of the
`Int32`: without the explicit offset the offsets are still `[0, 4]` and the classification
is unchanged. -/
theorem clearExplicitOffset_of_natural_offset_witness :
    getStructOffsets (clearExplicitOffset [⟨.integer .Int8, 0⟩, ⟨.integer .Int32, 4⟩] 1) =
        [0, 4] ∧
      getStructOffsets [⟨.integer .Int8, 0⟩, ⟨.integer .Int32, 4⟩] = [0, 4] ∧
      classify (.struct (clearExplicitOffset [⟨.integer .Int8, 0⟩, ⟨.integer .Int32, 4⟩] 1)) =
        classify (.struct [⟨.integer .Int8, 0⟩, ⟨.integer .Int32, 4⟩]) :=
  ⟨by decide, by decide,
    (clearExplicitOffset_of_natural_offset [⟨.integer .Int8, 0⟩, ⟨.integer .Int32, 4⟩] 1
      ⟨.integer .Int32, 4⟩ rfl (by decide)).2.2.2.2⟩

/-! ## Function signature lowerer -/

theorem Caches.empty_abiTypeCoherent (deref : TypeId → TypeObject) :
    Caches.empty.AbiTypeCoherent deref := by
  intro type value h
  simp [Caches.empty] at h

/-- What `abiType` does on coherent caches when `computeAbiType` returns, for type objects
that may be `Void`. -/
theorem abiTypeOf_of_coherent_ok (deref : TypeId → TypeObject) (caches : Caches)
    (type : TypeId) (h : caches.AbiTypeCoherent deref) (result : Option LlvmType)
    (hr : computeAbiTypeOf (deref type) = .ok result) :
    ∃ caches1 : Caches, abiTypeOf deref caches type = .ok (result, caches1) ∧
      caches1.AbiTypeCoherent deref := by
  unfold abiTypeOf
  cases hc : caches.abiTypeCache_ type with
  | some cached =>
      have hv := h type cached hc
      rw [hr] at hv
      have hv : result = cached := by injection hv
      subst hv
      exact ⟨caches, rfl, h⟩
  | none =>
      simp only [hr]
      refine ⟨_, rfl, ?_⟩
      intro k v hk
      by_cases hkt : k = type
      · subst hkt
        simp [Cache.insert, hc] at hk
        rw [hr, hk]
      · simp [Cache.insert, hkt] at hk
        exact h k v hk

/-- On coherent caches `abiType` stops exactly where `computeAbiType` does, for type objects
that may be `Void`. -/
theorem abiTypeOf_of_coherent_error (deref : TypeId → TypeObject) (caches : Caches)
    (type : TypeId) (h : caches.AbiTypeCoherent deref) (fatal : Fatal)
    (hr : computeAbiTypeOf (deref type) = .error fatal) :
    abiTypeOf deref caches type = .error fatal := by
  unfold abiTypeOf
  cases hc : caches.abiTypeCache_ type with
  | some cached =>
      have hv := h type cached hc
      rw [hr] at hv
      exact absurd hv (by simp)
  | none => simp only [hr]

/-- The loop of `rewriteFunctionType` on coherent caches, when no `abiType` call stops:
`results` gives what `computeAbiType` returns for each argument type. -/
theorem rewriteFunctionTypeLoop_of_coherent (deref : TypeId → TypeObject)
    (results : TypeId → Option LlvmType) (params : List LlvmTypeRef) :
    ∀ (args : List TypeId) (argTypes : List LlvmTypeRef) (modified : Bool) (caches : Caches),
      caches.AbiTypeCoherent deref → params.length = args.length →
      (∀ arg ∈ args, computeAbiTypeOf (deref arg) = .ok (results arg)) →
      ∃ caches1 : Caches,
        rewriteFunctionTypeLoop deref params args argTypes modified caches =
          .ok (argTypes ++
              List.zipWith (fun param arg => substitutedType (results arg) param) params args,
            modified || !(args.all (fun arg => (results arg).isNone)), caches1) ∧
          caches1.AbiTypeCoherent deref := by
  induction params with
  | nil =>
      intro args argTypes modified caches hcoh hlen _
      cases args with
      | nil => exact ⟨caches, by simp [rewriteFunctionTypeLoop], hcoh⟩
      | cons arg rest => simp at hlen
  | cons param params ih =>
      intro args argTypes modified caches hcoh hlen hok
      cases args with
      | nil => simp at hlen
      | cons arg rest =>
          simp only [List.length_cons, Nat.add_right_cancel_iff] at hlen
          have hr := hok arg (List.mem_cons_self _ _)
          obtain ⟨c1, hc1, hcoh1⟩ :=
            abiTypeOf_of_coherent_ok deref caches arg hcoh (results arg) hr
          have hrest : ∀ a ∈ rest, computeAbiTypeOf (deref a) = .ok (results a) :=
            fun a ha => hok a (List.mem_cons_of_mem _ ha)
          cases hres : results arg with
          | none =>
              rw [hres] at hc1
              obtain ⟨c2, hc2, hcoh2⟩ :=
                ih rest (argTypes ++ [param]) modified c1 hcoh1 hlen hrest
              refine ⟨c2, ?_, hcoh2⟩
              simp only [rewriteFunctionTypeLoop, hc1, hc2, List.zipWith_cons_cons, hres,
                substitutedType, List.all_cons, Option.isNone_none, Bool.true_and,
                List.append_assoc, List.singleton_append]
          | some abi =>
              rw [hres] at hc1
              obtain ⟨c2, hc2, hcoh2⟩ :=
                ih rest (argTypes ++ [.canonical abi]) true c1 hcoh1 hlen hrest
              refine ⟨c2, ?_, hcoh2⟩
              simp only [rewriteFunctionTypeLoop, hc1, hc2, List.zipWith_cons_cons, hres,
                substitutedType, List.all_cons, Option.isNone_some, Bool.false_and,
                Bool.not_false, Bool.or_true, Bool.true_or, List.append_assoc,
                List.singleton_append]

/-- For a signature whose parameter counts agree, on caches that hold only computed entries
and when `computeAbiType` returns `results type` for the return type and every argument type
(`Void` included): if all these results are null, `rewriteFunctionType` returns the very
`llvmFunctionType` it was given; otherwise it builds the signature whose return type and
parameters are the results where non-null and the original types where null, with the same
variadic flag. -/
theorem rewriteFunctionType_of_coherent (deref : TypeId → TypeObject) (caches : Caches)
    (llvmFunctionType : LlvmFunctionType) (functionType : FunctionType)
    (results : TypeId → Option LlvmType)
    (hcoh : caches.AbiTypeCoherent deref)
    (hlen : llvmFunctionType.paramTypes.length = functionType.argTypes.length)
    (hok : ∀ type ∈ functionType.returnType :: functionType.argTypes,
      computeAbiTypeOf (deref type) = .ok (results type)) :
    ∃ caches1 : Caches,
      rewriteFunctionType deref caches llvmFunctionType functionType =
        .ok (
          if (functionType.returnType :: functionType.argTypes).all
              (fun type => (results type).isNone) then
            .given
          else
            .get (substitutedType (results functionType.returnType)
                llvmFunctionType.returnType)
              (List.zipWith (fun param arg => substitutedType (results arg) param)
                llvmFunctionType.paramTypes functionType.argTypes)
              llvmFunctionType.isVarArg,
          caches1) ∧
        caches1.AbiTypeCoherent deref := by
  have hr := hok functionType.returnType (List.mem_cons_self _ _)
  obtain ⟨c1, hc1, hcoh1⟩ :=
    abiTypeOf_of_coherent_ok deref caches functionType.returnType hcoh _ hr
  have hargs : ∀ a ∈ functionType.argTypes, computeAbiTypeOf (deref a) = .ok (results a) :=
    fun a ha => hok a (List.mem_cons_of_mem _ ha)
  obtain ⟨c2, hc2, hcoh2⟩ := rewriteFunctionTypeLoop_of_coherent deref results
    llvmFunctionType.paramTypes functionType.argTypes []
    (results functionType.returnType).isSome c1 hcoh1 hlen hargs
  refine ⟨c2, ?_, hcoh2⟩
  unfold rewriteFunctionType
  cases hres : results functionType.returnType with
  | none =>
      rw [hres] at hc1 hc2
      simp only [hlen, ne_eq, not_true_eq_false, if_false, hc1, hc2, List.nil_append,
        List.all_cons, hres]
      cases hall : functionType.argTypes.all (fun arg => (results arg).isNone) <;>
        simp [substitutedType]
  | some abi =>
      rw [hres] at hc1 hc2
      simp only [hlen, ne_eq, not_true_eq_false, if_false, hc1, hc2, List.nil_append,
        List.all_cons, hres]
      simp [substitutedType]

/-- The first `abiType` call that stops at an assertion stops `rewriteFunctionType`: here
the call for the return type. -/
theorem rewriteFunctionType_error_of_returnType (deref : TypeId → TypeObject)
    (caches : Caches) (llvmFunctionType : LlvmFunctionType) (functionType : FunctionType)
    (fatal : Fatal) (hcoh : caches.AbiTypeCoherent deref)
    (hlen : llvmFunctionType.paramTypes.length = functionType.argTypes.length)
    (hr : computeAbiTypeOf (deref functionType.returnType) = .error fatal) :
    rewriteFunctionType deref caches llvmFunctionType functionType = .error fatal := by
  unfold rewriteFunctionType
  simp only [hlen, ne_eq, not_true_eq_false, if_false,
    abiTypeOf_of_coherent_error deref caches functionType.returnType hcoh fatal hr]

/-- C14, the code at the failing input `void f(Struct{LongDouble, Int8})`: the parameter
counts agree, `abiType` of the `Void` return type is null, the parameter type is classified
`{X87, Integer}` and `abiType` of it stops at the assertion that the upper half of a real is
`X87Up`, so `rewriteFunctionType` returns no signature at all. For contrast, on
`void f(Struct{Float, Float}, Int32, ...)` it builds the signature with the 2-lane `Float`
vector in place of the struct, and on `void f(Int32)` it returns the given signature. -/
theorem rewriteFunctionType_stops_at_assertion :
    computeAbiTypeOf TypeObject.void = .ok none ∧
      classify (.struct [⟨.floatingPoint .LongDouble, 0⟩, ⟨.integer .Int8, 0⟩]) =
        ⟨.X87, .Integer⟩ ∧
      rewriteFunctionType
        (fun type =>
          if type = 0 then TypeObject.void
          else TypeObject.nonVoid
            (.struct [⟨.floatingPoint .LongDouble, 0⟩, ⟨.integer .Int8, 0⟩]))
        Caches.empty ⟨.original 0, [.original 1], false⟩ ⟨0, [1]⟩ =
        .error .upperHalfOfRealNotX87Up ∧
      (rewriteFunctionType
          (fun type =>
            if type = 0 then TypeObject.void
            else if type = 1 then
              TypeObject.nonVoid
                (.struct [⟨.floatingPoint .Float, 0⟩, ⟨.floatingPoint .Float, 0⟩])
            else TypeObject.nonVoid (.integer .Int32))
          Caches.empty ⟨.original 0, [.original 1, .original 2], true⟩ ⟨0, [1, 2]⟩).map
          Prod.fst =
        .ok (.get (.original 0) [.canonical (.vector .float 2), .original 2] true) ∧
      (rewriteFunctionType
          (fun type =>
            if type = 0 then TypeObject.void else TypeObject.nonVoid (.integer .Int32))
          Caches.empty ⟨.original 0, [.original 2], false⟩ ⟨0, [2]⟩).map Prod.fst =
        .ok .given :=
  ⟨rfl, by decide, rfl, rfl, rfl⟩

/-! ## Value transcoder -/

theorem copyThroughMemory_of_lt (sourceSize destSize copySize : Nat) (value : Bytes)
    (h : destSize < copySize) :
    copyThroughMemory sourceSize destSize copySize value = .error .copyOutOfBounds := by
  unfold copyThroughMemory
  rw [if_neg]
  omega

/-- Whenever the canonical type of the first argument has fewer bytes than `typeSize` of
its type, the copy that `encodeValues` emits for it leaves the slot of the canonical type. -/
theorem encodeValuesLoop_copyOutOfBounds (deref : TypeId → Ty) (caches caches1 : Caches)
    (argValue : Bytes) (argValues : List Bytes) (argType : TypeId) (argTypes : List TypeId)
    (llvmAbiType : LlvmType)
    (habi : abiType deref caches argType = .ok (some llvmAbiType, caches1))
    (hlt : llvmTypeByteSize llvmAbiType < (typeSize deref caches1 argType).1) :
    encodeValuesLoop deref (argValue :: argValues) (argType :: argTypes) caches =
      .error .copyOutOfBounds := by
  simp only [encodeValuesLoop, habi, copyThroughMemory_of_lt _ _ _ _ hlt]

/-- The loop of `encodeValues` leaves every argument unchanged when no argument type needs
a transform. -/
theorem encodeValuesLoop_unchanged_of_null (deref : TypeId → Ty) (argValues : List Bytes) :
    ∀ (argTypes : List TypeId) (caches : Caches), caches.Coherent deref →
      argValues.length = argTypes.length →
      (∀ argType ∈ argTypes, computeAbiType (deref argType) = .ok none) →
      ∃ caches1 : Caches,
        encodeValuesLoop deref argValues argTypes caches = .ok (argValues, caches1) ∧
          caches1.Coherent deref := by
  induction argValues with
  | nil => intro argTypes caches hcoh _ _; exact ⟨caches, by simp [encodeValuesLoop], hcoh⟩
  | cons argValue rest ih =>
      intro argTypes caches hcoh hlen hnull
      cases argTypes with
      | nil => simp at hlen
      | cons argType restTypes =>
          simp only [List.length_cons, Nat.add_right_cancel_iff] at hlen
          obtain ⟨c1, hc1, hcoh1, _⟩ := abiType_of_coherent_ok deref caches argType hcoh none
            (hnull argType (List.mem_cons_self _ _))
          obtain ⟨c2, hc2, hcoh2⟩ := ih restTypes c1 hcoh1 hlen
            (fun t ht => hnull t (List.mem_cons_of_mem _ ht))
          exact ⟨c2, by simp only [encodeValuesLoop, hc1, hc2], hcoh2⟩

/-- The loop of `decodeValues` leaves every argument unchanged when no argument type needs
a transform. -/
theorem decodeValuesLoop_unchanged_of_null (deref : TypeId → Ty) (argValues : List Bytes) :
    ∀ (argTypes : List TypeId) (llvmArgTypes : List Nat) (caches : Caches),
      caches.Coherent deref → argValues.length = argTypes.length →
      (∀ argType ∈ argTypes, computeAbiType (deref argType) = .ok none) →
      ∃ caches1 : Caches,
        decodeValuesLoop deref argValues argTypes llvmArgTypes caches =
            .ok (argValues, caches1) ∧
          caches1.Coherent deref := by
  induction argValues with
  | nil =>
      intro argTypes llvmArgTypes caches hcoh _ _
      exact ⟨caches, by simp [decodeValuesLoop], hcoh⟩
  | cons argValue rest ih =>
      intro argTypes llvmArgTypes caches hcoh hlen hnull
      cases argTypes with
      | nil => simp at hlen
      | cons argType restTypes =>
          simp only [List.length_cons, Nat.add_right_cancel_iff] at hlen
          obtain ⟨c1, hc1, hcoh1, _⟩ := abiType_of_coherent_ok deref caches argType hcoh none
            (hnull argType (List.mem_cons_self _ _))
          obtain ⟨c2, hc2, hcoh2⟩ := ih restTypes llvmArgTypes.tail c1 hcoh1 hlen
            (fun t ht => hnull t (List.mem_cons_of_mem _ ht))
          exact ⟨c2, by simp only [decodeValuesLoop, hc1, hc2], hcoh2⟩

/-- On caches that hold only computed entries, `encodeValues` and `decodeValues` leave every
argument unchanged when no argument type needs a transform. -/
theorem encodeValues_decodeValues_unchanged_of_null (deref : TypeId → Ty) (caches : Caches)
    (argValues : List Bytes) (argTypes : List TypeId) (llvmArgTypes : List Nat)
    (hcoh : caches.Coherent deref) (hlen : argValues.length = argTypes.length)
    (hnull : ∀ argType ∈ argTypes, computeAbiType (deref argType) = .ok none) :
    (∃ caches1 : Caches,
        encodeValues deref caches argValues argTypes = .ok (argValues, caches1) ∧
          caches1.Coherent deref) ∧
      ∃ caches1 : Caches,
        decodeValues deref caches argValues argTypes llvmArgTypes = .ok (argValues, caches1) ∧
          caches1.Coherent deref := by
  have hne : ¬ (argValues.length ≠ argTypes.length) := by simp [hlen]
  unfold encodeValues decodeValues
  rw [if_neg hne, if_neg hne]
  exact ⟨encodeValuesLoop_unchanged_of_null deref argValues argTypes caches hcoh hlen hnull,
    decodeValuesLoop_unchanged_of_null deref argValues argTypes llvmArgTypes caches hcoh hlen
      hnull⟩

/-- Where the canonical type has at least `getTypeSize` bytes, the round trip gives the value
back: a value of `getTypeSize` bytes, encoded and then decoded into a slot of the natural
type (`getTypeSize` bytes), is unchanged. -/
theorem decodeValues_encodeValues_of_fits (deref : TypeId → Ty) (caches : Caches)
    (value : Bytes) (argType : TypeId) (llvmAbiType : LlvmType)
    (hcoh : caches.Coherent deref)
    (habi : computeAbiType (deref argType) = .ok (some llvmAbiType))
    (hfit : getTypeSize (deref argType) ≤ llvmTypeByteSize llvmAbiType)
    (hval : value.length = getTypeSize (deref argType)) :
    ∃ (encodedValue : Bytes) (caches1 caches2 : Caches),
      encodeValues deref caches [value] [argType] = .ok ([encodedValue], caches1) ∧
        encodedValue.length = llvmTypeByteSize llvmAbiType ∧
        decodeValues deref caches1 [encodedValue] [argType] [getTypeSize (deref argType)] =
          .ok ([value], caches2) := by
  obtain ⟨c1, hc1, hcoh1, _⟩ := abiType_of_coherent_ok deref caches argType hcoh _ habi
  obtain ⟨hs1, hcoh2, _⟩ := typeSize_of_coherent deref c1 argType hcoh1
  obtain ⟨_, hcoh3, _⟩ := typeAlign_of_coherent deref _ argType hcoh2
  obtain ⟨c4, hc4, hcoh4, _⟩ := abiType_of_coherent_ok deref _ argType hcoh3 _ habi
  obtain ⟨hs4, _, _⟩ := typeSize_of_coherent deref c4 argType hcoh4
  refine ⟨value ++ List.replicate (llvmTypeByteSize llvmAbiType - value.length) 0,
    (typeAlign deref (typeSize deref c1 argType).2 argType).2,
    (typeAlign deref (typeSize deref c4 argType).2 argType).2, ?_, ?_, ?_⟩
  · have hcopy : copyThroughMemory value.length (llvmTypeByteSize llvmAbiType)
        (typeSize deref c1 argType).1 value =
        .ok (value ++ List.replicate (llvmTypeByteSize llvmAbiType - value.length) 0) := by
      rw [hs1, ← hval]
      unfold copyThroughMemory
      rw [if_pos ⟨by omega, Nat.le_refl _⟩, List.take_length]
    simp only [encodeValues, List.length_cons, List.length_nil, ne_eq, not_true_eq_false,
      if_false, encodeValuesLoop, hc1, hcopy]
  · simp only [List.length_append, List.length_replicate]
    omega
  · have hcopy : copyThroughMemory
        (value ++ List.replicate (llvmTypeByteSize llvmAbiType - value.length) 0).length
        (getTypeSize (deref argType)) (typeSize deref c4 argType).1
        (value ++ List.replicate (llvmTypeByteSize llvmAbiType - value.length) 0) =
        .ok value := by
      rw [hs4, ← hval]
      unfold copyThroughMemory
      rw [if_pos ⟨Nat.le_refl _, by simp⟩]
      simp
    simp only [decodeValues, List.length_cons, List.length_nil, ne_eq, not_true_eq_false,
      if_false, decodeValuesLoop, hc4, hcopy]

/-- C17, the code at the failing input `Struct{Double, Double, Double}` (size 24): its
canonical type is the pair `(Double, Double)` of 16 bytes, and for every value of the struct
the copy of 24 bytes that `encodeValues` emits leaves the 16-byte slot, so no encoded value
carries the third `Double` and the round trip cannot give the value back. For contrast, a
value of `Struct{Double, Double}` goes through `encodeValues` and `decodeValues` unchanged in
its 16 bytes, and a value of an `Int32`, whose type needs no transform, is left as it is by
both. -/
theorem encodeValues_copy_leaves_slot (value : Bytes) :
    getTypeSize
        (.struct [⟨.floatingPoint .Double, 0⟩, ⟨.floatingPoint .Double, 0⟩,
          ⟨.floatingPoint .Double, 0⟩]) = 24 ∧
      computeAbiType
        (.struct [⟨.floatingPoint .Double, 0⟩, ⟨.floatingPoint .Double, 0⟩,
          ⟨.floatingPoint .Double, 0⟩]) = .ok (some (.struct [.double, .double])) ∧
      llvmTypeByteSize (.struct [.double, .double]) = 16 ∧
      encodeValues
        (fun _ =>
          .struct [⟨.floatingPoint .Double, 0⟩, ⟨.floatingPoint .Double, 0⟩,
            ⟨.floatingPoint .Double, 0⟩])
        Caches.empty [value] [0] = .error .copyOutOfBounds ∧
      (encodeValues
          (fun _ => .struct [⟨.floatingPoint .Double, 0⟩, ⟨.floatingPoint .Double, 0⟩])
          Caches.empty [List.range 16] [0]).map Prod.fst = .ok [List.range 16] ∧
      (decodeValues
          (fun _ => .struct [⟨.floatingPoint .Double, 0⟩, ⟨.floatingPoint .Double, 0⟩])
          Caches.empty [List.range 16] [0] [16]).map Prod.fst = .ok [List.range 16] ∧
      (encodeValues (fun _ => .integer .Int32) Caches.empty [[1, 2, 3, 4]] [0]).map Prod.fst =
        .ok [[1, 2, 3, 4]] ∧
      (decodeValues (fun _ => .integer .Int32) Caches.empty [[1, 2, 3, 4]] [0] [4]).map
          Prod.fst = .ok [[1, 2, 3, 4]] := by
  refine ⟨by decide, rfl, by decide, ?_, rfl, rfl, rfl, rfl⟩
  have hlen : ¬ ([value].length ≠ [0].length) := by simp
  unfold encodeValues
  rw [if_neg hlen]
  exact encodeValuesLoop_copyOutOfBounds _ Caches.empty _ value [] 0 [] _ rfl (by decide)

end llvm_abi
